import Mathlib

/-!
Shallow embedding of the two meta-learning experiment scripts
`Meta-learning/MAML/fc100/maml.py` and `Meta-learning/ITD-BiO/fc100/ITD-BiO.py`.

Numeric tensor values are modelled by rationals (`Val`).  Library functions
supplied by torch / learn2learn (model forward passes, `learner.adapt`,
cross-entropy loss, Adam updates, task sampling, autodiff gradients) are
abstract function parameters; everything the scripts themselves do — index
masks, loops, accumulation, scaling, recording, file naming — is embedded
concretely from the source.
-/

/-- Scalar value type modelling a torch float tensor entry. -/
abbrev Val := ℚ

/- ------------------------------------------------------------------
   fast_adapt: adaptation/evaluation index masks (both scripts, identical
   code):
     adaptation_indices = np.zeros(data.size(0), dtype=bool)
     adaptation_indices[np.arange(shots*ways) * 2] = True
     evaluation_indices = ~adaptation_indices
   numpy raises IndexError on an out-of-bounds index assignment; we model
   that with Option.
   ------------------------------------------------------------------ -/

/-- One numpy boolean index assignment `l[i] = True`; fails out of bounds. -/
def npSetIndex (l : List Bool) (i : Nat) : Option (List Bool) :=
  if i < l.length then some (l.set i true) else none

/-- Fancy index assignment `l[is] = True`, numpy style: left to right,
failing on the first out-of-bounds index. -/
def npSetIndices : List Bool → List Nat → Option (List Bool)
  | l, [] => some l
  | l, i :: rest =>
    match npSetIndex l i with
    | none => none
    | some l₂ => npSetIndices l₂ rest

/-- The adaptation mask built by fast_adapt for a batch of `n` examples:
`np.zeros(n, dtype=bool)` with positions `np.arange(sw) * 2` set to True,
where `sw = shots*ways`. -/
def adaptationIndices (n sw : Nat) : Option (List Bool) :=
  npSetIndices (List.replicate n false) ((List.range sw).map (fun k => k * 2))

/-- Boolean-mask selection `data[mask]` (numpy / torch boolean indexing). -/
def boolMaskSelect {α : Type} : List α → List Bool → List α
  | [], _ => []
  | _, [] => []
  | a :: as, b :: bs => if b then a :: boolMaskSelect as bs else boolMaskSelect as bs

/-- Specification-side helper: the elements at even positions 0,2,4,... -/
def selEven {α : Type} : List α → List α
  | [] => []
  | [a] => [a]
  | a :: _ :: rest => a :: selEven rest

/-- Specification-side helper: the elements at odd positions 1,3,5,... -/
def selOdd {α : Type} : List α → List α
  | [] => []
  | [_] => []
  | _ :: b :: rest => b :: selOdd rest

/-- Specification-side helper: the alternating mask [true,false,...] of
length `2*s`. -/
def altMask : Nat → List Bool
  | 0 => []
  | s + 1 => true :: false :: altMask s

/- Lemmas about the mask construction. -/

lemma npSetIndices_sound (is : List Nat) (l l₂ : List Bool)
    (h : npSetIndices l is = some l₂) :
    l₂.length = l.length ∧ (∀ i ∈ is, i < l.length) ∧
      ∀ j, l₂.getD j false = (l.getD j false || is.contains j) := by
  induction is generalizing l with
  | nil =>
    simp only [npSetIndices, Option.some.injEq] at h
    subst h
    simp
  | cons i rest ih =>
    simp only [npSetIndices, npSetIndex] at h
    by_cases hi : i < l.length
    · simp only [hi, if_pos] at h
      obtain ⟨hlen, hmem, hchar⟩ := ih (l.set i true) h
      refine ⟨by simpa using hlen, ?_, ?_⟩
      · intro j hj
        rcases List.mem_cons.mp hj with rfl | hj
        · exact hi
        · have := hmem j hj
          simpa using this
      · intro j
        rw [hchar j]
        by_cases hji : j = i
        · subst hji
          have hset : (l.set j true).getD j false = true := by
            rw [List.getD_eq_getElem _ _ (by simpa using hi)]
            simp [List.getElem_set]
          rw [hset, List.contains_cons]
          simp
        · have hset : (l.set i true).getD j false = l.getD j false := by
            by_cases hj : j < l.length
            · rw [List.getD_eq_getElem _ _ (by simpa using hj),
                List.getD_eq_getElem _ _ hj]
              simp [List.getElem_set, Ne.symm hji]
            · rw [List.getD_eq_default _ _ (by simpa using Nat.le_of_not_lt hj),
                List.getD_eq_default _ _ (Nat.le_of_not_lt hj)]
          rw [hset, List.contains_cons]
          have hne : (j == i) = false := by simpa using hji
          rw [hne, Bool.false_or]
    · simp [hi] at h

lemma npSetIndices_complete (is : List Nat) (l : List Bool)
    (h : ∀ i ∈ is, i < l.length) : (npSetIndices l is).isSome := by
  induction is generalizing l with
  | nil => simp [npSetIndices]
  | cons i rest ih =>
    have hi : i < l.length := h i (List.mem_cons_self i rest)
    simp only [npSetIndices, npSetIndex, hi, if_pos]
    exact ih (l.set i true) (by intro j hj; simpa using h j (List.mem_cons_of_mem i hj))

lemma npSetIndices_oob (is : List Nat) (l : List Bool)
    (h : ∃ i ∈ is, l.length ≤ i) : npSetIndices l is = none := by
  induction is generalizing l with
  | nil => simp at h
  | cons i rest ih =>
    obtain ⟨j, hj, hge⟩ := h
    simp only [npSetIndices, npSetIndex]
    rcases List.mem_cons.mp hj with rfl | hjr
    · simp [Nat.not_lt.mpr hge]
    · by_cases hi : i < l.length
      · simp only [hi, if_pos]
        exact ih (l.set i true) ⟨j, hjr, by simpa using hge⟩
      · simp [hi]

lemma adaptationIndices_isSome_iff (n sw : Nat) :
    (adaptationIndices n sw).isSome ↔ 2 * sw ≤ n + 1 := by
  constructor
  · intro h
    obtain ⟨m, hm⟩ := Option.isSome_iff_exists.mp h
    obtain ⟨-, hmem, -⟩ := npSetIndices_sound _ _ _ hm
    rcases Nat.eq_zero_or_pos sw with hsw | hsw
    · subst hsw; omega
    · have : (sw - 1) * 2 < n := by
        have := hmem ((sw - 1) * 2)
          (by
            refine List.mem_map.mpr ⟨sw - 1, ?_, rfl⟩
            exact List.mem_range.mpr (by omega))
        simpa using this
      omega
  · intro h
    apply npSetIndices_complete
    intro i hi
    obtain ⟨k, hk, rfl⟩ := List.mem_map.mp hi
    have := List.mem_range.mp hk
    simp only [List.length_replicate]
    omega

lemma adaptationIndices_getD (n sw : Nat) (m : List Bool)
    (h : adaptationIndices n sw = some m) :
    m.length = n ∧ ∀ j, m.getD j false = decide (j % 2 = 0 ∧ j < 2 * sw) := by
  obtain ⟨hlen, hmem, hchar⟩ := npSetIndices_sound _ _ _ h
  refine ⟨by simpa using hlen, ?_⟩
  intro j
  rw [hchar j]
  have hrep : (List.replicate n false).getD j false = false := by
    by_cases hj : j < n
    · rw [List.getD_eq_getElem _ _ (by simpa using hj)]; simp
    · rw [List.getD_eq_default _ _ (by simpa using Nat.le_of_not_lt hj)]
  rw [hrep, Bool.false_or]
  by_cases hc : j % 2 = 0 ∧ j < 2 * sw
  · rw [decide_eq_true hc]
    simp
    exact ⟨j / 2, by omega, by omega⟩
  · have hd : decide (j % 2 = 0 ∧ j < 2 * sw) = false := by
      simpa using hc
    rw [hd]
    simp
    intro x hx hxe
    exact hc ⟨by omega, by omega⟩

lemma altMask_length (s : Nat) : (altMask s).length = 2 * s := by
  induction s with
  | zero => rfl
  | succ n ih => simp [altMask, ih]; omega

lemma altMask_getD (s : Nat) (j : Nat) :
    (altMask s).getD j false = decide (j % 2 = 0 ∧ j < 2 * s) := by
  induction s generalizing j with
  | zero => simp [altMask]
  | succ n ih =>
    match j with
    | 0 => simp [altMask]
    | 1 => simp [altMask]
    | j + 2 =>
      show (altMask n).getD j false = _
      rw [ih j, decide_eq_decide]
      omega

lemma adaptationIndices_eq_altMask (sw : Nat) :
    adaptationIndices (2 * sw) sw = some (altMask sw) := by
  have hsome : (adaptationIndices (2 * sw) sw).isSome :=
    (adaptationIndices_isSome_iff _ _).mpr (by omega)
  obtain ⟨m, hm⟩ := Option.isSome_iff_exists.mp hsome
  obtain ⟨hlen, hchar⟩ := adaptationIndices_getD _ _ _ hm
  rw [hm]
  congr 1
  apply List.ext_getElem
  · rw [hlen, altMask_length]
  · intro i h₁ h₂
    have hgd₁ : m.getD i false = m[i] := List.getD_eq_getElem _ _ h₁
    have hgd₂ : (altMask sw).getD i false = (altMask sw)[i] :=
      List.getD_eq_getElem _ _ h₂
    rw [← hgd₁, ← hgd₂, hchar i, altMask_getD]

lemma boolMaskSelect_altMask_even {α : Type} (s : Nat) (batch : List α)
    (h : batch.length = 2 * s) :
    boolMaskSelect batch (altMask s) = selEven batch := by
  induction s generalizing batch with
  | zero =>
    match batch with
    | [] => rfl
    | a :: t => simp at h
  | succ n ih =>
    match batch with
    | [] => simp at h
    | [a] => simp at h; omega
    | a :: b :: rest =>
      have hr : rest.length = 2 * n := by
        simp only [List.length_cons] at h
        omega
      show boolMaskSelect (a :: b :: rest) (true :: false :: altMask n) = _
      simp [boolMaskSelect, selEven, ih rest hr]

lemma boolMaskSelect_altMask_odd {α : Type} (s : Nat) (batch : List α)
    (h : batch.length = 2 * s) :
    boolMaskSelect batch ((altMask s).map not) = selOdd batch := by
  induction s generalizing batch with
  | zero =>
    match batch with
    | [] => rfl
    | a :: t => simp at h
  | succ n ih =>
    match batch with
    | [] => simp at h
    | [a] => simp at h; omega
    | a :: b :: rest =>
      have hr : rest.length = 2 * n := by
        simp only [List.length_cons] at h
        omega
      show boolMaskSelect (a :: b :: rest) (false :: true :: (altMask n).map not) = _
      simp [boolMaskSelect, selOdd, ih rest hr]

lemma selEven_length {α : Type} (s : Nat) (batch : List α)
    (h : batch.length = 2 * s) : (selEven batch).length = s := by
  induction s generalizing batch with
  | zero =>
    match batch with
    | [] => rfl
    | a :: t => simp at h
  | succ n ih =>
    match batch with
    | [] => simp at h
    | [a] => simp at h; omega
    | a :: b :: rest =>
      have hr : rest.length = 2 * n := by
        simp only [List.length_cons] at h
        omega
      show (a :: selEven rest).length = n + 1
      simp [ih rest hr]

lemma selOdd_length {α : Type} (s : Nat) (batch : List α)
    (h : batch.length = 2 * s) : (selOdd batch).length = s := by
  induction s generalizing batch with
  | zero =>
    match batch with
    | [] => rfl
    | a :: t => simp at h
  | succ n ih =>
    match batch with
    | [] => simp at h
    | [a] => simp at h; omega
    | a :: b :: rest =>
      have hr : rest.length = 2 * n := by
        simp only [List.length_cons] at h
        omega
      show (b :: selOdd rest).length = n + 1
      simp [ih rest hr]

lemma range_filter_even (s : Nat) :
    (List.range (2 * s)).filter (fun j => j % 2 == 0)
      = (List.range s).map (fun k => 2 * k) := by
  induction s with
  | zero => simp
  | succ n ih =>
    have e1 : 2 * (n + 1) = 2 * n + 1 + 1 := by omega
    have ha : 2 * n % 2 = 0 := by omega
    have hb : (2 * n + 1) % 2 = 1 := by omega
    rw [e1]
    simp [List.range_succ, List.filter_append, ha, hb, ih]

lemma range_filter_odd (s : Nat) :
    (List.range (2 * s)).filter (fun j => !(j % 2 == 0))
      = (List.range s).map (fun k => 2 * k + 1) := by
  induction s with
  | zero => simp
  | succ n ih =>
    have e1 : 2 * (n + 1) = 2 * n + 1 + 1 := by omega
    have ha : 2 * n % 2 = 0 := by omega
    have hb : (2 * n + 1) % 2 = 1 := by omega
    rw [e1]
    simp [List.range_succ, List.filter_append, ha, hb, ih]

lemma altMask_filter_range (s : Nat) :
    (List.range (2 * s)).filter (fun j => (altMask s).getD j false)
      = (List.range s).map (fun k => 2 * k) := by
  rw [← range_filter_even]
  apply List.filter_congr
  intro j hj
  have hjlt := List.mem_range.mp hj
  rw [altMask_getD]
  by_cases he : j % 2 = 0
  · rw [decide_eq_true ⟨he, hjlt⟩]
    simp [he]
  · have : ¬(j % 2 = 0 ∧ j < 2 * s) := fun hcc => he hcc.1
    rw [decide_eq_false this]
    simp [he]

lemma altMask_filter_range_not (s : Nat) :
    (List.range (2 * s)).filter (fun j => !((altMask s).getD j false))
      = (List.range s).map (fun k => 2 * k + 1) := by
  rw [← range_filter_odd]
  apply List.filter_congr
  intro j hj
  have hjlt := List.mem_range.mp hj
  rw [altMask_getD]
  by_cases he : j % 2 = 0
  · rw [decide_eq_true ⟨he, hjlt⟩]
    simp [he]
  · have : ¬(j % 2 = 0 ∧ j < 2 * s) := fun hcc => he hcc.1
    rw [decide_eq_false this]
    simp [he]

/-- C1: for every episode batch of exactly `2*shots*ways` examples, fast_adapt
(in both scripts — both build the mask identically) takes the examples at even
positions `0, 2, ..., 2*(shots*ways-1)` as the adaptation set and the
remaining odd-position examples as the evaluation set; each set has exactly
`shots*ways` elements, the adaptation (even) and evaluation (odd) position
sets are disjoint, and together they cover the whole batch. -/
theorem claim1_even_odd_split {α : Type} (shots ways : Nat) (batch : List α)
    (h : batch.length = 2 * (shots * ways)) :
    adaptationIndices batch.length (shots * ways) = some (altMask (shots * ways))
    ∧ boolMaskSelect batch (altMask (shots * ways)) = selEven batch
    ∧ boolMaskSelect batch ((altMask (shots * ways)).map not) = selOdd batch
    ∧ (selEven batch).length = shots * ways
    ∧ (selOdd batch).length = shots * ways
    ∧ (List.range batch.length).filter
        (fun j => (altMask (shots * ways)).getD j false)
        = (List.range (shots * ways)).map (fun k => 2 * k)
    ∧ (List.range batch.length).filter
        (fun j => !((altMask (shots * ways)).getD j false))
        = (List.range (shots * ways)).map (fun k => 2 * k + 1)
    ∧ (∀ j, ¬(j ∈ (List.range (shots * ways)).map (fun k => 2 * k)
          ∧ j ∈ (List.range (shots * ways)).map (fun k => 2 * k + 1)))
    ∧ (∀ j < batch.length, j ∈ (List.range (shots * ways)).map (fun k => 2 * k)
          ∨ j ∈ (List.range (shots * ways)).map (fun k => 2 * k + 1)) := by
  refine ⟨?_, boolMaskSelect_altMask_even _ _ h, boolMaskSelect_altMask_odd _ _ h,
    selEven_length _ _ h, selOdd_length _ _ h, ?_, ?_, ?_, ?_⟩
  · rw [h]; exact adaptationIndices_eq_altMask _
  · rw [h]; exact altMask_filter_range _
  · rw [h]; exact altMask_filter_range_not _
  · intro j ⟨hje, hjo⟩
    obtain ⟨k, -, hk⟩ := List.mem_map.mp hje
    obtain ⟨k₂, -, hk₂⟩ := List.mem_map.mp hjo
    omega
  · intro j hj
    rw [h] at hj
    by_cases he : j % 2 = 0
    · exact Or.inl (List.mem_map.mpr ⟨j / 2, List.mem_range.mpr (by omega), by omega⟩)
    · exact Or.inr (List.mem_map.mpr ⟨j / 2, List.mem_range.mpr (by omega), by omega⟩)

theorem claim1_even_odd_split_witness :
    boolMaskSelect ([10, 11, 12, 13] : List Nat) (altMask (1 * 2)) = [10, 12]
    ∧ boolMaskSelect ([10, 11, 12, 13] : List Nat) ((altMask (1 * 2)).map not)
        = [11, 13] :=
  ⟨((claim1_even_odd_split 1 2 [10, 11, 12, 13] (by decide)).2.1).trans (by decide),
   ((claim1_even_odd_split 1 2 [10, 11, 12, 13] (by decide)).2.2.1).trans (by decide)⟩

/-- C10: the index assignment
`adaptation_indices[np.arange(shots*ways) * 2] = True` is in bounds exactly
when the batch has at least `2*shots*ways - 1` examples (stated over ℕ as
`2*sw ≤ n + 1`); the largest index written is `2*(shots*ways - 1)`; under the
precondition the produced boolean mask has exactly the batch's length (so the
subsequent boolean-mask indexing of data and labels cannot fail), and for a
smaller batch the index assignment is an error (`none`). -/
theorem claim10_mask_bounds (n sw : Nat) :
    ((adaptationIndices n sw).isSome ↔ 2 * sw ≤ n + 1)
    ∧ (2 * sw ≤ n + 1 → ((adaptationIndices n sw).getD []).length = n)
    ∧ (n + 1 < 2 * sw → adaptationIndices n sw = none)
    ∧ (∀ i ∈ (List.range sw).map (fun k => k * 2), i ≤ 2 * (sw - 1)) := by
  refine ⟨adaptationIndices_isSome_iff n sw, ?_, ?_, ?_⟩
  · intro h
    obtain ⟨m, hm⟩ := Option.isSome_iff_exists.mp
      ((adaptationIndices_isSome_iff n sw).mpr h)
    rw [hm]
    exact (adaptationIndices_getD n sw m hm).1
  · intro h
    have : ¬(adaptationIndices n sw).isSome := by
      rw [adaptationIndices_isSome_iff]; omega
    exact Option.not_isSome_iff_eq_none.mp this
  · intro i hi
    obtain ⟨k, hk, rfl⟩ := List.mem_map.mp hi
    have := List.mem_range.mp hk
    omega

theorem claim10_mask_bounds_witness :
    ((adaptationIndices 3 2).getD []).length = 3
    ∧ adaptationIndices 2 2 = none :=
  ⟨(claim10_mask_bounds 3 2).2.1 (by decide),
   (claim10_mask_bounds 2 2).2.2.1 (by decide)⟩

/- ------------------------------------------------------------------
   accuracy and fast_adapt (both scripts).
   accuracy(predictions, targets):
     predictions = predictions.argmax(dim=1).view(targets.shape)
     return (predictions == targets).sum().float() / targets.size(0)
   ------------------------------------------------------------------ -/

/-- Helper for torch.argmax on one row: remaining entries, current index,
best index so far, best value so far (first maximal index wins). -/
def argmaxAux : List Val → Nat → Nat → Val → Nat
  | [], _, best, _ => best
  | x :: xs, i, best, m =>
    if m < x then argmaxAux xs (i + 1) i x else argmaxAux xs (i + 1) best m

/-- torch.argmax over one row of logits. -/
def argmaxIdx : List Val → Nat
  | [] => 0
  | x :: xs => argmaxAux xs 1 0 x

/-- The accuracy function shared by both scripts. -/
def accuracy (preds : List (List Val)) (targets : List Nat) : Val :=
  ((((preds.map argmaxIdx).zip targets).countP (fun pt => pt.1 == pt.2) : ℚ))
    / (targets.length : Val)

/-- Specification-side accuracy: the number of examples whose argmax
prediction equals their label, divided by the number of examples. -/
def specAccuracy (preds : List (List Val)) (targets : List Nat) : Val :=
  (((preds.zip targets).countP (fun pt => argmaxIdx pt.1 == pt.2) : ℚ))
    / (targets.length : Val)

lemma accuracy_eq_specAccuracy (preds : List (List Val)) (targets : List Nat) :
    accuracy preds targets = specAccuracy preds targets := by
  unfold accuracy specAccuracy
  congr 1
  norm_cast
  induction preds generalizing targets with
  | nil => simp
  | cons p ps ih =>
    match targets with
    | [] => simp
    | t :: ts => simp [List.countP_cons, ih ts]

/-- The fast_adapt inner loop `for step in range(adaptation_steps)`: each
iteration computes the training error of the current learner on the
adaptation data and calls `learner.adapt` on it. -/
def adaptLoop {L : Type} (adapt : L → Val → L) (errF : L → Val) : Nat → L → L
  | 0, l => l
  | n + 1, l => adaptLoop adapt errF n (adapt l (errF l))

/-- maml.py inner-loop training error:
`train_error = loss(learner(adaptation_data), adaptation_labels)` followed by
`train_error /= len(adaptation_data)`. -/
def mamlStepError {L DT : Type} (fwd : L → List DT → List (List Val))
    (celoss : List (List Val) → List Nat → Val)
    (aD : List DT) (aL : List Nat) (l : L) : Val :=
  celoss (fwd l aD) aL / (aD.length : Val)

/-- ITD-BiO.py inner-loop training error:
`l2_reg = 0; for p in learner.parameters(): l2_reg += p.norm(2)` then
`train_error = loss(learner(adaptation_data), adaptation_labels)
  + reg_lambda*l2_reg`. -/
def itdStepError {L DT2 P : Type} (fwd : L → List DT2 → List (List Val))
    (celoss : List (List Val) → List Nat → Val)
    (lparams : L → List P) (norm2 : P → Val) (reg : Val)
    (aD : List DT2) (aL : List Nat) (l : L) : Val :=
  celoss (fwd l aD) aL
    + reg * ((lparams l).foldl (fun acc p => acc + norm2 p) 0)

/-- maml.py evaluation phase of fast_adapt: predictions, evaluation error
(divided by the evaluation-set size) and evaluation accuracy. -/
def mamlEvalOn {L DT : Type} (fwd : L → List DT → List (List Val))
    (celoss : List (List Val) → List Nat → Val)
    (eD : List DT) (eL : List Nat) (l : L) : Val × Val :=
  let predictions := fwd l eD
  (celoss predictions eL / (eD.length : Val), accuracy predictions eL)

/-- ITD-BiO.py evaluation phase of fast_adapt (no division by the
evaluation-set size). -/
def itdEvalOn {L DT2 : Type} (fwd : L → List DT2 → List (List Val))
    (celoss : List (List Val) → List Nat → Val)
    (eD : List DT2) (eL : List Nat) (l : L) : Val × Val :=
  let predictions := fwd l eD
  (celoss predictions eL, accuracy predictions eL)

/-- fast_adapt from maml.py.  `fwd`, `adapt` and `celoss` are the library
functions (learner forward pass, differentiable adaptation step,
cross-entropy loss); `sw` is shots*ways. -/
def mamlFastAdapt {L DT : Type} (fwd : L → List DT → List (List Val))
    (adapt : L → Val → L) (celoss : List (List Val) → List Nat → Val)
    (batch : List DT × List Nat) (learner : L) (steps sw : Nat) :
    Option (Val × Val) :=
  match adaptationIndices batch.1.length sw with
  | none => none
  | some ai =>
    let aD := boolMaskSelect batch.1 ai
    let aL := boolMaskSelect batch.2 ai
    let eD := boolMaskSelect batch.1 (ai.map not)
    let eL := boolMaskSelect batch.2 (ai.map not)
    let final := adaptLoop adapt (mamlStepError fwd celoss aD aL) steps learner
    some (mamlEvalOn fwd celoss eD eL final)

/-- fast_adapt from ITD-BiO.py.  `features` is the frozen-per-task backbone
applied to the whole batch before the split (`data = features(data)`);
`lparams`/`norm2` model `learner.parameters()` and `p.norm(2)`; `reg` is
reg_lambda. -/
def itdFastAdapt {L DT DT2 P : Type} (features : List DT → List DT2)
    (fwd : L → List DT2 → List (List Val)) (adapt : L → Val → L)
    (lparams : L → List P) (norm2 : P → Val)
    (celoss : List (List Val) → List Nat → Val) (reg : Val)
    (batch : List DT × List Nat) (learner : L) (steps sw : Nat) :
    Option (Val × Val) :=
  let data := features batch.1
  match adaptationIndices data.length sw with
  | none => none
  | some ai =>
    let aD := boolMaskSelect data ai
    let aL := boolMaskSelect batch.2 ai
    let eD := boolMaskSelect data (ai.map not)
    let eL := boolMaskSelect batch.2 (ai.map not)
    let final :=
      adaptLoop adapt (itdStepError fwd celoss lparams norm2 reg aD aL) steps learner
    some (itdEvalOn fwd celoss eD eL final)

lemma foldl_add_eq_sum {P : Type} (f : P → Val) (a : Val) (l : List P) :
    l.foldl (fun acc p => acc + f p) a = a + (l.map f).sum := by
  induction l generalizing a with
  | nil => simp
  | cons p ps ih => simp [List.foldl_cons, ih (a + f p)]; ring

lemma adaptLoop_eq_iterate {L : Type} (adapt : L → Val → L) (errF : L → Val)
    (n : Nat) (l : L) :
    adaptLoop adapt errF n l = (fun x => adapt x (errF x))^[n] l := by
  induction n generalizing l with
  | zero => rfl
  | succ k ih =>
    rw [Function.iterate_succ_apply]
    exact ih (adapt l (errF l))

/-- C2: in the ITD-BiO script, at every inner-loop step the training error
passed to `learner.adapt` (the error function iterated by `adaptLoop` inside
`itdFastAdapt`) equals the cross-entropy loss of the learner on the
adaptation data plus reg_lambda times the sum over the learner's parameters
of their L2 norms; in the MAML script the inner-loop error passed to
`learner.adapt` is just the cross-entropy loss divided by the adaptation-set
size — no regularization term appears. -/
theorem claim2_inner_loop_regularization {L DT DT2 P : Type}
    (fwd : L → List DT2 → List (List Val))
    (celoss : List (List Val) → List Nat → Val)
    (lparams : L → List P) (norm2 : P → Val) (reg : Val)
    (aD : List DT2) (aL : List Nat)
    (fwdm : L → List DT → List (List Val))
    (celossm : List (List Val) → List Nat → Val)
    (aDm : List DT) (aLm : List Nat) :
    (∀ l : L, itdStepError fwd celoss lparams norm2 reg aD aL l
        = celoss (fwd l aD) aL + reg * ((lparams l).map norm2).sum)
    ∧ (∀ l : L, mamlStepError fwdm celossm aDm aLm l
        = celossm (fwdm l aDm) aLm / (aDm.length : Val)) := by
  constructor
  · intro l
    unfold itdStepError
    rw [foldl_add_eq_sum]
    ring
  · intro l
    rfl

theorem claim2_inner_loop_regularization_witness :
    itdStepError (fun (l : Val) (d : List Val) => d.map (fun x => [l * x]))
        (fun preds _ => (preds.length : Val)) (fun l => [l, l]) (fun p => p * p)
        (2 : Val) [1, 2] [0, 0] (3 : Val)
      = (2 : Val) + 2 * (9 + 9)
    ∧ mamlStepError (fun (l : Val) (d : List Val) => d.map (fun x => [l * x]))
        (fun preds _ => (preds.length : Val)) [1, 2] [0, 0] (3 : Val)
      = (2 : Val) / 2 :=
  ⟨((claim2_inner_loop_regularization
      (fun (l : Val) (d : List Val) => d.map (fun x => [l * x]))
      (fun preds _ => (preds.length : Val)) (fun l => [l, l]) (fun p => p * p)
      (2 : Val) [1, 2] [0, 0]
      (fun (l : Val) (d : List Val) => d.map (fun x => [l * x]))
      (fun preds _ => (preds.length : Val)) [1, 2] [0, 0]).1 3).trans (by norm_num),
   ((claim2_inner_loop_regularization
      (fun (l : Val) (d : List Val) => d.map (fun x => [l * x]))
      (fun preds _ => (preds.length : Val)) (fun l => [l, l]) (fun p => p * p)
      (2 : Val) [1, 2] [0, 0]
      (fun (l : Val) (d : List Val) => d.map (fun x => [l * x]))
      (fun preds _ => (preds.length : Val)) [1, 2] [0, 0]).2 3).trans (by norm_num)⟩

/-- C8: for every nonnegative `adaptation_steps`, fast_adapt (in both
scripts) performs exactly `adaptation_steps` inner-loop updates on the
learner — the inner loop is the `adaptation_steps`-fold iterate of a single
`learner.adapt` call on the task's adaptation data — before evaluating
predictions, evaluation error and evaluation accuracy on the evaluation
data; with `adaptation_steps = 0` the loop is the identity, so the unadapted
learner is evaluated; totality of the definitions gives termination for
every input. -/
theorem claim8_adaptation_steps {L DT DT2 P : Type}
    (fwd : L → List DT → List (List Val)) (adapt : L → Val → L)
    (celoss : List (List Val) → List Nat → Val)
    (batch : List DT × List Nat) (learner : L) (steps sw : Nat)
    (features : List DT → List DT2)
    (fwdi : L → List DT2 → List (List Val)) (adapti : L → Val → L)
    (lparams : L → List P) (norm2 : P → Val)
    (celossi : List (List Val) → List Nat → Val) (reg : Val)
    (errF : L → Val) :
    (∀ n l, adaptLoop adapt errF n l = (fun x => adapt x (errF x))^[n] l)
    ∧ (∀ l, adaptLoop adapt errF 0 l = l)
    ∧ mamlFastAdapt fwd adapt celoss batch learner steps sw
        = (adaptationIndices batch.1.length sw).map (fun ai =>
            mamlEvalOn fwd celoss (boolMaskSelect batch.1 (ai.map not))
              (boolMaskSelect batch.2 (ai.map not))
              ((fun x => adapt x (mamlStepError fwd celoss
                  (boolMaskSelect batch.1 ai) (boolMaskSelect batch.2 ai)
                  x))^[steps] learner))
    ∧ itdFastAdapt features fwdi adapti lparams norm2 celossi reg batch
          learner steps sw
        = (adaptationIndices (features batch.1).length sw).map (fun ai =>
            itdEvalOn fwdi celossi
              (boolMaskSelect (features batch.1) (ai.map not))
              (boolMaskSelect batch.2 (ai.map not))
              ((fun x => adapti x (itdStepError fwdi celossi lparams norm2 reg
                  (boolMaskSelect (features batch.1) ai)
                  (boolMaskSelect batch.2 ai) x))^[steps] learner)) := by
  refine ⟨adaptLoop_eq_iterate adapt errF, fun l => rfl, ?_, ?_⟩
  · unfold mamlFastAdapt
    cases adaptationIndices batch.1.length sw with
    | none => rfl
    | some ai => simp [adaptLoop_eq_iterate]
  · unfold itdFastAdapt
    cases h : adaptationIndices (features batch.1).length sw with
    | none => simp [h]
    | some ai => simp [h, adaptLoop_eq_iterate]

/- ------------------------------------------------------------------
   Outer loop of maml.py.  The library-provided world: a global RNG
   shared by random/numpy/torch (a Nat state, reset by the seed calls at
   the top of main), random model initialization, the three task
   samplers, the differentiable-adaptation wrapper, the loss, the
   autodiff gradients produced by evaluation_error.backward(), the
   per-parameter Adam update and the wall clock.  `F`/`H` index the
   parameters of the convolutional backbone and of the linear head.
   ------------------------------------------------------------------ -/

/-- External world of maml.py. -/
structure MamlEnv (F H DT L : Type) where
  seedRng : Nat → Nat
  initModel : Nat → ((F → Val) × (H → Val)) × Nat
  sampleTrain : Nat → (List DT × List Nat) × Nat
  sampleValid : Nat → (List DT × List Nat) × Nat
  sampleTest : Nat → (List DT × List Nat) × Nat
  clone : (F → Val) → (H → Val) → L
  fwd : L → List DT → List (List Val)
  adapt : Val → L → Val → L
  celoss : List (List Val) → List Nat → Val
  gradF : (F → Val) → (H → Val) → List DT × List Nat → F → Val
  gradH : (F → Val) → (H → Val) → List DT × List Nat → H → Val
  adamF : Val → Val → Val → Val
  adamH : Val → Val → Val → Val
  now : Nat → Val

/-- State threaded through the per-iteration task loop of either script:
the RNG, the .grad accumulators of the two parameter groups, and the six
running statistics of the iteration. -/
structure TaskState (F H : Type) where
  rng : Nat
  gF : F → Val
  gH : H → Val
  mtE : Val
  mtA : Val
  mvE : Val
  mvA : Val
  mteE : Val
  mteA : Val

/-- Default task state (used only with Option.getD in statements). -/
def dTask {F H : Type} : TaskState F H :=
  { rng := 0, gF := fun _ => 0, gH := fun _ => 0,
    mtE := 0, mtA := 0, mvE := 0, mvA := 0, mteE := 0, mteA := 0 }

/-- Meta-training part of one task of maml.py's task loop:
clone, sample, fast_adapt, `evaluation_error.backward()` (which adds the
task's meta-gradient into every model parameter's .grad), and the
`meta_train_*` accumulations. -/
def mamlTrainPhase {F H DT L : Type} (env : MamlEnv F H DT L) (fastLr : Val)
    (steps sw : Nat) (pF : F → Val) (pH : H → Val) (st : TaskState F H) :
    Option (TaskState F H) :=
  let learner := env.clone pF pH
  let s := env.sampleTrain st.rng
  match mamlFastAdapt env.fwd (env.adapt fastLr) env.celoss s.1 learner steps sw with
  | none => none
  | some ea =>
    some { rng := s.2,
           gF := fun i => st.gF i + env.gradF pF pH s.1 i,
           gH := fun j => st.gH j + env.gradH pF pH s.1 j,
           mtE := st.mtE + ea.1, mtA := st.mtA + ea.2,
           mvE := st.mvE, mvA := st.mvA, mteE := st.mteE, mteA := st.mteA }

/-- Meta-validation part of one task of maml.py's task loop: a fresh clone,
a validation batch, fast_adapt, and only the `meta_valid_*` accumulations —
no backward call. -/
def mamlValidPhase {F H DT L : Type} (env : MamlEnv F H DT L) (fastLr : Val)
    (steps sw : Nat) (pF : F → Val) (pH : H → Val) (st : TaskState F H) :
    Option (TaskState F H) :=
  let learner := env.clone pF pH
  let s := env.sampleValid st.rng
  match mamlFastAdapt env.fwd (env.adapt fastLr) env.celoss s.1 learner steps sw with
  | none => none
  | some ea =>
    some { rng := s.2, gF := st.gF, gH := st.gH,
           mtE := st.mtE, mtA := st.mtA,
           mvE := st.mvE + ea.1, mvA := st.mvA + ea.2,
           mteE := st.mteE, mteA := st.mteA }

/-- Meta-test part of one task of maml.py's task loop: a fresh clone, a test
batch, fast_adapt, and only the `meta_test_*` accumulations — no backward
call. -/
def mamlTestPhase {F H DT L : Type} (env : MamlEnv F H DT L) (fastLr : Val)
    (steps sw : Nat) (pF : F → Val) (pH : H → Val) (st : TaskState F H) :
    Option (TaskState F H) :=
  let learner := env.clone pF pH
  let s := env.sampleTest st.rng
  match mamlFastAdapt env.fwd (env.adapt fastLr) env.celoss s.1 learner steps sw with
  | none => none
  | some ea =>
    some { rng := s.2, gF := st.gF, gH := st.gH,
           mtE := st.mtE, mtA := st.mtA,
           mvE := st.mvE, mvA := st.mvA,
           mteE := st.mteE + ea.1, mteA := st.mteA + ea.2 }

/-- One pass of the body of `for task in range(meta_batch_size)`. -/
def mamlTaskIter {F H DT L : Type} (env : MamlEnv F H DT L) (fastLr : Val)
    (steps sw : Nat) (pF : F → Val) (pH : H → Val) (st : TaskState F H) :
    Option (TaskState F H) :=
  match mamlTrainPhase env fastLr steps sw pF pH st with
  | none => none
  | some st₂ =>
    match mamlValidPhase env fastLr steps sw pF pH st₂ with
    | none => none
    | some st₃ => mamlTestPhase env fastLr steps sw pF pH st₃

/-- `for task in range(n)`: the task-loop body applied n times. -/
def mamlTaskLoop {F H DT L : Type} (env : MamlEnv F H DT L) (fastLr : Val)
    (steps sw : Nat) (pF : F → Val) (pH : H → Val) :
    Nat → TaskState F H → Option (TaskState F H)
  | 0, st => some st
  | n + 1, st =>
    match mamlTaskLoop env fastLr steps sw pF pH n st with
    | none => none
    | some st₂ => mamlTaskIter env fastLr steps sw pF pH st₂

/-- opt.step() of maml.py: the optimizer was created over
`maml.parameters()`, i.e. backbone and head together, so the Adam update is
applied to every parameter of both groups. -/
def mamlOptStep {F H : Type} (adamF adamH : Val → Val → Val → Val)
    (metaLr : Val) (pF : F → Val) (pH : H → Val) (gF : F → Val)
    (gH : H → Val) : (F → Val) × (H → Val) :=
  (fun i => adamF metaLr (pF i) (gF i), fun j => adamH metaLr (pH j) (gH j))

/-- Result of one outer iteration: the model parameters and their .grad
after the step, the RNG, and the two recorded accuracies. -/
structure IterResult (F H : Type) where
  pF : F → Val
  pH : H → Val
  gF : F → Val
  gH : H → Val
  rng : Nat
  recTrain : Val
  recTest : Val

/-- Default iteration result (used only with Option.getD in statements). -/
def dIter {F H : Type} : IterResult F H :=
  { pF := fun _ => 0, pH := fun _ => 0, gF := fun _ => 0, gH := fun _ => 0,
    rng := 0, recTrain := 0, recTest := 0 }

/-- One outer iteration of maml.py: `opt.zero_grad()` (all model parameters
are in the optimizer, so both .grad groups are zeroed), the task loop over
`meta_batch_size` tasks, the recording
`training_accuracy[it] = meta_train_accuracy / meta_batch_size` (same for
test), the scaling `p.grad.data.mul_(1.0 / meta_batch_size)` of every
optimized parameter, and `opt.step()`. -/
def mamlIteration {F H DT L : Type} (env : MamlEnv F H DT L)
    (metaLr fastLr : Val) (steps sw B : Nat) (pF : F → Val) (pH : H → Val)
    (rng : Nat) : Option (IterResult F H) :=
  let st0 : TaskState F H :=
    { rng := rng, gF := fun _ => 0, gH := fun _ => 0,
      mtE := 0, mtA := 0, mvE := 0, mvA := 0, mteE := 0, mteA := 0 }
  match mamlTaskLoop env fastLr steps sw pF pH B st0 with
  | none => none
  | some st =>
    let gFs := fun i => st.gF i * (1 / (B : Val))
    let gHs := fun j => st.gH j * (1 / (B : Val))
    let p₂ := mamlOptStep env.adamF env.adamH metaLr pF pH gFs gHs
    some { pF := p₂.1, pH := p₂.2, gF := gFs, gH := gHs, rng := st.rng,
           recTrain := st.mtA / (B : Val), recTest := st.mteA / (B : Val) }

/-- The iteration result of maml.py under Option.getD. -/
def mamlIterOut {F H DT L : Type} (env : MamlEnv F H DT L)
    (metaLr fastLr : Val) (steps sw B : Nat) (pF : F → Val) (pH : H → Val)
    (rng : Nat) : IterResult F H :=
  (mamlIteration env metaLr fastLr steps sw B pF pH rng).getD dIter

/-- The outer iteration loop of maml.py: `k` remaining iterations starting
at index `idx`, returning final parameters, final RNG and the recorded
training-accuracy / test-accuracy / running-time arrays. -/
def mamlRunIters {F H DT L : Type} (env : MamlEnv F H DT L)
    (metaLr fastLr : Val) (steps sw B : Nat) (startT : Val) :
    Nat → Nat → (F → Val) → (H → Val) → Nat →
      Option ((F → Val) × (H → Val) × Nat × (List Val × List Val × List Val))
  | 0, _, pF, pH, rng => some (pF, pH, rng, ([], [], []))
  | k + 1, idx, pF, pH, rng =>
    match mamlIteration env metaLr fastLr steps sw B pF pH rng with
    | none => none
    | some r =>
      let rt := env.now (idx + 1) - startT
      match mamlRunIters env metaLr fastLr steps sw B startT k (idx + 1)
          r.pF r.pH r.rng with
      | none => none
      | some rest =>
        some (rest.1, rest.2.1, rest.2.2.1,
          (r.recTrain :: rest.2.2.2.1, r.recTest :: rest.2.2.2.2.1,
           rt :: rest.2.2.2.2.2))

/-- main(...) of maml.py.  `rngIn` models the incoming global RNG state of
the process; the seeding calls at the top of main overwrite it with a state
depending only on `seed`, which is why it is unused below. -/
def mamlMain {F H DT L : Type} (env : MamlEnv F H DT L)
    (metaLr fastLr : Val) (ways shots B steps iters seed _rngIn : Nat) :
    Option (List Val × List Val × List Val) :=
  let rng0 := env.seedRng seed
  let im := env.initModel rng0
  let startT := env.now 0
  (mamlRunIters env metaLr fastLr steps (shots * ways) B startT iters 0
      im.1.1 im.1.2 im.2).map (fun r => r.2.2.2)

/- ------------------------------------------------------------------
   Outer loop of ITD-BiO.py.  Differences from maml.py:
   - the model is split: `features` (backbone, parameters indexed by F)
     and `head` (linear layer wrapped in the MAML adapter, indexed by H);
   - fast_adapt receives the features module and applies it to the batch;
   - the optimizer is built over all_parameters =
     list(features.parameters()) ONLY, so zero_grad, the 1/meta_bsz
     scaling loop and optimizer.step() touch the backbone parameters
     only; the head's .grad still receives contributions from
     evaluation_error.backward() and persists across iterations.
   ------------------------------------------------------------------ -/

/-- External world of ITD-BiO.py. -/
structure ItdEnv (F H DT DT2 L P : Type) where
  seedRng : Nat → Nat
  initModel : Nat → ((F → Val) × (H → Val)) × Nat
  sampleTrain : Nat → (List DT × List Nat) × Nat
  sampleValid : Nat → (List DT × List Nat) × Nat
  sampleTest : Nat → (List DT × List Nat) × Nat
  features : (F → Val) → List DT → List DT2
  clone : (H → Val) → L
  fwd : L → List DT2 → List (List Val)
  adapt : Val → L → Val → L
  lparams : L → List P
  norm2 : P → Val
  celoss : List (List Val) → List Nat → Val
  gradF : (F → Val) → (H → Val) → List DT × List Nat → F → Val
  gradH : (F → Val) → (H → Val) → List DT × List Nat → H → Val
  adamF : Val → Val → Val → Val
  now : Nat → Val

/-- Meta-training part of one task of ITD-BiO.py's task loop:
`learner = head.clone()`, sample, fast_adapt (with the features module and
reg_lambda), `evaluation_error.backward()` (gradients reach both the
backbone, through `data = features(data)`, and the head's initial
parameters, through the clone), and the `meta_train_*` accumulations. -/
def itdTrainPhase {F H DT DT2 L P : Type} (env : ItdEnv F H DT DT2 L P)
    (fastLr reg : Val) (steps sw : Nat) (pF : F → Val) (pH : H → Val)
    (st : TaskState F H) : Option (TaskState F H) :=
  let learner := env.clone pH
  let s := env.sampleTrain st.rng
  match itdFastAdapt (env.features pF) env.fwd (env.adapt fastLr) env.lparams
      env.norm2 env.celoss reg s.1 learner steps sw with
  | none => none
  | some ea =>
    some { rng := s.2,
           gF := fun i => st.gF i + env.gradF pF pH s.1 i,
           gH := fun j => st.gH j + env.gradH pF pH s.1 j,
           mtE := st.mtE + ea.1, mtA := st.mtA + ea.2,
           mvE := st.mvE, mvA := st.mvA, mteE := st.mteE, mteA := st.mteA }

/-- Meta-validation part of one task of ITD-BiO.py's task loop: fresh
clone, validation batch, fast_adapt, only `meta_valid_*` accumulations. -/
def itdValidPhase {F H DT DT2 L P : Type} (env : ItdEnv F H DT DT2 L P)
    (fastLr reg : Val) (steps sw : Nat) (pF : F → Val) (pH : H → Val)
    (st : TaskState F H) : Option (TaskState F H) :=
  let learner := env.clone pH
  let s := env.sampleValid st.rng
  match itdFastAdapt (env.features pF) env.fwd (env.adapt fastLr) env.lparams
      env.norm2 env.celoss reg s.1 learner steps sw with
  | none => none
  | some ea =>
    some { rng := s.2, gF := st.gF, gH := st.gH,
           mtE := st.mtE, mtA := st.mtA,
           mvE := st.mvE + ea.1, mvA := st.mvA + ea.2,
           mteE := st.mteE, mteA := st.mteA }

/-- Meta-test part of one task of ITD-BiO.py's task loop: fresh clone, test
batch, fast_adapt, only `meta_test_*` accumulations. -/
def itdTestPhase {F H DT DT2 L P : Type} (env : ItdEnv F H DT DT2 L P)
    (fastLr reg : Val) (steps sw : Nat) (pF : F → Val) (pH : H → Val)
    (st : TaskState F H) : Option (TaskState F H) :=
  let learner := env.clone pH
  let s := env.sampleTest st.rng
  match itdFastAdapt (env.features pF) env.fwd (env.adapt fastLr) env.lparams
      env.norm2 env.celoss reg s.1 learner steps sw with
  | none => none
  | some ea =>
    some { rng := s.2, gF := st.gF, gH := st.gH,
           mtE := st.mtE, mtA := st.mtA,
           mvE := st.mvE, mvA := st.mvA,
           mteE := st.mteE + ea.1, mteA := st.mteA + ea.2 }

/-- One pass of the body of `for task in range(meta_bsz)`. -/
def itdTaskIter {F H DT DT2 L P : Type} (env : ItdEnv F H DT DT2 L P)
    (fastLr reg : Val) (steps sw : Nat) (pF : F → Val) (pH : H → Val)
    (st : TaskState F H) : Option (TaskState F H) :=
  match itdTrainPhase env fastLr reg steps sw pF pH st with
  | none => none
  | some st₂ =>
    match itdValidPhase env fastLr reg steps sw pF pH st₂ with
    | none => none
    | some st₃ => itdTestPhase env fastLr reg steps sw pF pH st₃

/-- `for task in range(n)`: the ITD-BiO task-loop body applied n times. -/
def itdTaskLoop {F H DT DT2 L P : Type} (env : ItdEnv F H DT DT2 L P)
    (fastLr reg : Val) (steps sw : Nat) (pF : F → Val) (pH : H → Val) :
    Nat → TaskState F H → Option (TaskState F H)
  | 0, st => some st
  | n + 1, st =>
    match itdTaskLoop env fastLr reg steps sw pF pH n st with
    | none => none
    | some st₂ => itdTaskIter env fastLr reg steps sw pF pH st₂

/-- optimizer.step() of ITD-BiO.py: the optimizer was created over
`all_parameters = list(features.parameters())` only, so the Adam update is
applied to the backbone parameters and the head's initial parameters are
left untouched. -/
def itdOptStep {F H : Type} (adamF : Val → Val → Val → Val) (metaLr : Val)
    (pF : F → Val) (pH : H → Val) (gF : F → Val) : (F → Val) × (H → Val) :=
  (fun i => adamF metaLr (pF i) (gF i), pH)

/-- One outer iteration of ITD-BiO.py: `optimizer.zero_grad()` (zeroing the
backbone .grad only — the head is not in the optimizer, so its .grad keeps
its incoming value `gH`), the task loop over `meta_bsz` tasks, recording,
the scaling `p.grad.data.mul_(1.0 / meta_bsz)` over `all_parameters`
(backbone only), and `optimizer.step()`. -/
def itdIteration {F H DT DT2 L P : Type} (env : ItdEnv F H DT DT2 L P)
    (metaLr fastLr reg : Val) (steps sw B : Nat) (pF : F → Val)
    (pH : H → Val) (gH : H → Val) (rng : Nat) : Option (IterResult F H) :=
  let st0 : TaskState F H :=
    { rng := rng, gF := fun _ => 0, gH := gH,
      mtE := 0, mtA := 0, mvE := 0, mvA := 0, mteE := 0, mteA := 0 }
  match itdTaskLoop env fastLr reg steps sw pF pH B st0 with
  | none => none
  | some st =>
    let gFs := fun i => st.gF i * (1 / (B : Val))
    let p₂ := itdOptStep env.adamF metaLr pF pH gFs
    some { pF := p₂.1, pH := p₂.2, gF := gFs, gH := st.gH, rng := st.rng,
           recTrain := st.mtA / (B : Val), recTest := st.mteA / (B : Val) }

/-- The iteration result of ITD-BiO.py under Option.getD. -/
def itdIterOut {F H DT DT2 L P : Type} (env : ItdEnv F H DT DT2 L P)
    (metaLr fastLr reg : Val) (steps sw B : Nat) (pF : F → Val)
    (pH : H → Val) (gH : H → Val) (rng : Nat) : IterResult F H :=
  (itdIteration env metaLr fastLr reg steps sw B pF pH gH rng).getD dIter

/-- The outer iteration loop of ITD-BiO.py (the head's .grad is live state
across iterations, since it is never zeroed). -/
def itdRunIters {F H DT DT2 L P : Type} (env : ItdEnv F H DT DT2 L P)
    (metaLr fastLr reg : Val) (steps sw B : Nat) (startT : Val) :
    Nat → Nat → (F → Val) → (H → Val) → (H → Val) → Nat →
      Option ((F → Val) × (H → Val) × Nat × (List Val × List Val × List Val))
  | 0, _, pF, pH, _, rng => some (pF, pH, rng, ([], [], []))
  | k + 1, idx, pF, pH, gH, rng =>
    match itdIteration env metaLr fastLr reg steps sw B pF pH gH rng with
    | none => none
    | some r =>
      let rt := env.now (idx + 1) - startT
      match itdRunIters env metaLr fastLr reg steps sw B startT k (idx + 1)
          r.pF r.pH r.gH r.rng with
      | none => none
      | some rest =>
        some (rest.1, rest.2.1, rest.2.2.1,
          (r.recTrain :: rest.2.2.2.1, r.recTest :: rest.2.2.2.2.1,
           rt :: rest.2.2.2.2.2))

/-- main(...) of ITD-BiO.py; as in maml.py, the incoming global RNG state
`_rngIn` is overwritten by the seeding calls at the top of main. -/
def itdMain {F H DT DT2 L P : Type} (env : ItdEnv F H DT DT2 L P)
    (metaLr fastLr reg : Val) (ways shots B steps iters seed _rngIn : Nat) :
    Option (List Val × List Val × List Val) :=
  let rng0 := env.seedRng seed
  let im := env.initModel rng0
  let startT := env.now 0
  (itdRunIters env metaLr fastLr reg steps (shots * ways) B startT iters 0
      im.1.1 im.1.2 (fun _ => 0) im.2).map (fun r => r.2.2.2)

/- ------------------------------------------------------------------
   The __main__ blocks of the two scripts.
   ------------------------------------------------------------------ -/

/-- The seed list common to both __main__ blocks. -/
def scriptSeeds : List Nat := [42, 52, 62, 72, 82]

/-- The per-seed loop of maml.py's __main__: for each seed run
`main(meta_lr=lr, fast_lr=fastlr, adaptation_steps=stp,
num_iterations=1200, seed=seed)` and append the three returned arrays to
`train_accuracy`, `test_accuracy`, `run_time`. -/
def mamlSeedLoop {F H DT L : Type} (env : MamlEnv F H DT L)
    (metaLr fastLr : Val) (stp iters : Nat) :
    List Nat → Option (List (List Val) × List (List Val) × List (List Val))
  | [] => some ([], [], [])
  | s :: rest =>
    match mamlMain env metaLr fastLr 5 5 32 stp iters s 0 with
    | none => none
    | some out =>
      match mamlSeedLoop env metaLr fastLr stp iters rest with
      | none => none
      | some acc =>
        some (out.1 :: acc.1, out.2.1 :: acc.2.1, out.2.2 :: acc.2.2)

/-- maml.py's __main__: seeds [42,52,62,72,82], lr=0.001, fastlr=0.5,
stp=3, 1200 iterations per run; afterwards the three accumulated lists are
pickled to 'exp_data/<name>' ++ pstr with
pstr = '_lr_' + str(lr) + '_fastlr_' + str(fastlr) + '_steps_' + str(stp).
`pyStr` models Python's str() on floats.  The result is the ordered list
of (filename, pickled contents) writes. -/
def mamlScript {F H DT L : Type} (env : MamlEnv F H DT L)
    (pyStr : Val → String) : Option (List (String × List (List Val))) :=
  match mamlSeedLoop env (1 / 1000) (1 / 2) 3 1200 scriptSeeds with
  | none => none
  | some acc =>
    let pstr := "_lr_" ++ pyStr (1 / 1000) ++ "_fastlr_" ++ pyStr (1 / 2)
      ++ "_steps_" ++ toString (3 : Nat)
    some [("exp_data/train_accuracy" ++ pstr, acc.1),
          ("exp_data/test_accuracy" ++ pstr, acc.2.1),
          ("exp_data/run_time" ++ pstr, acc.2.2)]

/-- The per-seed loop of ITD-BiO.py's __main__: for each seed run
`main(meta_lr=lr, adapt_steps=stp, fast_lr=fastlr, reg_lambda=reg,
iters=1500, seed=seed)` and append the three returned arrays. -/
def itdSeedLoop {F H DT DT2 L P : Type} (env : ItdEnv F H DT DT2 L P)
    (metaLr fastLr reg : Val) (stp iters : Nat) :
    List Nat → Option (List (List Val) × List (List Val) × List (List Val))
  | [] => some ([], [], [])
  | s :: rest =>
    match itdMain env metaLr fastLr reg 5 5 32 stp iters s 0 with
    | none => none
    | some out =>
      match itdSeedLoop env metaLr fastLr reg stp iters rest with
      | none => none
      | some acc =>
        some (out.1 :: acc.1, out.2.1 :: acc.2.1, out.2.2 :: acc.2.2)

/-- ITD-BiO.py's __main__: seeds [42,52,62,72,82], stp=20, lr=0.001,
fastlr=0.1, reg=0, 1500 iterations per run; the same three writes with the
same pstr shape (reg is not part of pstr). -/
def itdScript {F H DT DT2 L P : Type} (env : ItdEnv F H DT DT2 L P)
    (pyStr : Val → String) : Option (List (String × List (List Val))) :=
  match itdSeedLoop env (1 / 1000) (1 / 10) 0 20 1500 scriptSeeds with
  | none => none
  | some acc =>
    let pstr := "_lr_" ++ pyStr (1 / 1000) ++ "_fastlr_" ++ pyStr (1 / 10)
      ++ "_steps_" ++ toString (20 : Nat)
    some [("exp_data/train_accuracy" ++ pstr, acc.1),
          ("exp_data/test_accuracy" ++ pstr, acc.2.1),
          ("exp_data/run_time" ++ pstr, acc.2.2)]

/- ------------------------------------------------------------------
   Replay of the sampling stream: the batches each task of an iteration
   draws, used to state what the task loop accumulates.
   ------------------------------------------------------------------ -/

/-- RNG advance of one task of maml.py's loop (three samples drawn). -/
def mamlRngStep {F H DT L : Type} (env : MamlEnv F H DT L) (rng : Nat) :
    Nat :=
  (env.sampleTest (env.sampleValid (env.sampleTrain rng).2).2).2

/-- The (train, valid, test) batches drawn by one task of maml.py's loop
from RNG state `rng`. -/
def mamlTriple {F H DT L : Type} (env : MamlEnv F H DT L) (rng : Nat) :
    (List DT × List Nat) × (List DT × List Nat) × (List DT × List Nat) :=
  ((env.sampleTrain rng).1,
   (env.sampleValid (env.sampleTrain rng).2).1,
   (env.sampleTest (env.sampleValid (env.sampleTrain rng).2).2).1)

/-- The batch triples of the first `n` tasks of one maml.py iteration. -/
def mamlTriples {F H DT L : Type} (env : MamlEnv F H DT L) (rng : Nat) :
    Nat →
      List ((List DT × List Nat) × (List DT × List Nat) × (List DT × List Nat))
  | 0 => []
  | n + 1 =>
    mamlTriples env rng n ++ [mamlTriple env ((mamlRngStep env)^[n] rng)]

/-- The (evaluation error, evaluation accuracy) pair maml.py's fast_adapt
returns on batch `b` for a fresh clone of the current meta parameters
(under Option.getD; inside a successful task loop the call is `some`). -/
def mamlTaskEval {F H DT L : Type} (env : MamlEnv F H DT L) (fastLr : Val)
    (steps sw : Nat) (pF : F → Val) (pH : H → Val)
    (b : List DT × List Nat) : Val × Val :=
  (mamlFastAdapt env.fwd (env.adapt fastLr) env.celoss b (env.clone pF pH)
    steps sw).getD (0, 0)

/-- RNG advance of one task of ITD-BiO.py's loop. -/
def itdRngStep {F H DT DT2 L P : Type} (env : ItdEnv F H DT DT2 L P)
    (rng : Nat) : Nat :=
  (env.sampleTest (env.sampleValid (env.sampleTrain rng).2).2).2

/-- The (train, valid, test) batches drawn by one task of ITD-BiO.py's
loop from RNG state `rng`. -/
def itdTriple {F H DT DT2 L P : Type} (env : ItdEnv F H DT DT2 L P)
    (rng : Nat) :
    (List DT × List Nat) × (List DT × List Nat) × (List DT × List Nat) :=
  ((env.sampleTrain rng).1,
   (env.sampleValid (env.sampleTrain rng).2).1,
   (env.sampleTest (env.sampleValid (env.sampleTrain rng).2).2).1)

/-- The batch triples of the first `n` tasks of one ITD-BiO.py
iteration. -/
def itdTriples {F H DT DT2 L P : Type} (env : ItdEnv F H DT DT2 L P)
    (rng : Nat) :
    Nat →
      List ((List DT × List Nat) × (List DT × List Nat) × (List DT × List Nat))
  | 0 => []
  | n + 1 =>
    itdTriples env rng n ++ [itdTriple env ((itdRngStep env)^[n] rng)]

/-- The (evaluation error, evaluation accuracy) pair ITD-BiO.py's
fast_adapt returns on batch `b` for a fresh clone of the current head
parameters (under Option.getD). -/
def itdTaskEval {F H DT DT2 L P : Type} (env : ItdEnv F H DT DT2 L P)
    (fastLr reg : Val) (steps sw : Nat) (pF : F → Val) (pH : H → Val)
    (b : List DT × List Nat) : Val × Val :=
  (itdFastAdapt (env.features pF) env.fwd (env.adapt fastLr) env.lparams
    env.norm2 env.celoss reg b (env.clone pH) steps sw).getD (0, 0)

lemma mamlTrainPhase_spec {F H DT L : Type} (env : MamlEnv F H DT L)
    (fastLr : Val) (steps sw : Nat) (pF : F → Val) (pH : H → Val)
    (st st₂ : TaskState F H)
    (h : mamlTrainPhase env fastLr steps sw pF pH st = some st₂) :
    st₂.rng = (env.sampleTrain st.rng).2
    ∧ (∀ i, st₂.gF i = st.gF i + env.gradF pF pH (env.sampleTrain st.rng).1 i)
    ∧ (∀ j, st₂.gH j = st.gH j + env.gradH pF pH (env.sampleTrain st.rng).1 j)
    ∧ st₂.mtE = st.mtE
        + (mamlTaskEval env fastLr steps sw pF pH (env.sampleTrain st.rng).1).1
    ∧ st₂.mtA = st.mtA
        + (mamlTaskEval env fastLr steps sw pF pH (env.sampleTrain st.rng).1).2
    ∧ st₂.mvE = st.mvE ∧ st₂.mvA = st.mvA
    ∧ st₂.mteE = st.mteE ∧ st₂.mteA = st.mteA := by
  unfold mamlTrainPhase at h
  dsimp only at h
  cases hfa : mamlFastAdapt env.fwd (env.adapt fastLr) env.celoss
      (env.sampleTrain st.rng).1 (env.clone pF pH) steps sw with
  | none => rw [hfa] at h; cases h
  | some ea =>
    rw [hfa] at h
    simp only [Option.some.injEq] at h
    subst h
    unfold mamlTaskEval
    rw [hfa]
    exact ⟨rfl, fun i => rfl, fun j => rfl, rfl, rfl, rfl, rfl, rfl, rfl⟩

lemma mamlValidPhase_spec {F H DT L : Type} (env : MamlEnv F H DT L)
    (fastLr : Val) (steps sw : Nat) (pF : F → Val) (pH : H → Val)
    (st st₂ : TaskState F H)
    (h : mamlValidPhase env fastLr steps sw pF pH st = some st₂) :
    st₂.rng = (env.sampleValid st.rng).2
    ∧ st₂.gF = st.gF ∧ st₂.gH = st.gH
    ∧ st₂.mtE = st.mtE ∧ st₂.mtA = st.mtA
    ∧ st₂.mvE = st.mvE
        + (mamlTaskEval env fastLr steps sw pF pH (env.sampleValid st.rng).1).1
    ∧ st₂.mvA = st.mvA
        + (mamlTaskEval env fastLr steps sw pF pH (env.sampleValid st.rng).1).2
    ∧ st₂.mteE = st.mteE ∧ st₂.mteA = st.mteA := by
  unfold mamlValidPhase at h
  dsimp only at h
  cases hfa : mamlFastAdapt env.fwd (env.adapt fastLr) env.celoss
      (env.sampleValid st.rng).1 (env.clone pF pH) steps sw with
  | none => rw [hfa] at h; cases h
  | some ea =>
    rw [hfa] at h
    simp only [Option.some.injEq] at h
    subst h
    unfold mamlTaskEval
    rw [hfa]
    exact ⟨rfl, rfl, rfl, rfl, rfl, rfl, rfl, rfl, rfl⟩

lemma mamlTestPhase_spec {F H DT L : Type} (env : MamlEnv F H DT L)
    (fastLr : Val) (steps sw : Nat) (pF : F → Val) (pH : H → Val)
    (st st₂ : TaskState F H)
    (h : mamlTestPhase env fastLr steps sw pF pH st = some st₂) :
    st₂.rng = (env.sampleTest st.rng).2
    ∧ st₂.gF = st.gF ∧ st₂.gH = st.gH
    ∧ st₂.mtE = st.mtE ∧ st₂.mtA = st.mtA
    ∧ st₂.mvE = st.mvE ∧ st₂.mvA = st.mvA
    ∧ st₂.mteE = st.mteE
        + (mamlTaskEval env fastLr steps sw pF pH (env.sampleTest st.rng).1).1
    ∧ st₂.mteA = st.mteA
        + (mamlTaskEval env fastLr steps sw pF pH (env.sampleTest st.rng).1).2 := by
  unfold mamlTestPhase at h
  dsimp only at h
  cases hfa : mamlFastAdapt env.fwd (env.adapt fastLr) env.celoss
      (env.sampleTest st.rng).1 (env.clone pF pH) steps sw with
  | none => rw [hfa] at h; cases h
  | some ea =>
    rw [hfa] at h
    simp only [Option.some.injEq] at h
    subst h
    unfold mamlTaskEval
    rw [hfa]
    exact ⟨rfl, rfl, rfl, rfl, rfl, rfl, rfl, rfl, rfl⟩

lemma itdTrainPhase_spec {F H DT DT2 L P : Type}
    (env : ItdEnv F H DT DT2 L P) (fastLr reg : Val) (steps sw : Nat)
    (pF : F → Val) (pH : H → Val) (st st₂ : TaskState F H)
    (h : itdTrainPhase env fastLr reg steps sw pF pH st = some st₂) :
    st₂.rng = (env.sampleTrain st.rng).2
    ∧ (∀ i, st₂.gF i = st.gF i + env.gradF pF pH (env.sampleTrain st.rng).1 i)
    ∧ (∀ j, st₂.gH j = st.gH j + env.gradH pF pH (env.sampleTrain st.rng).1 j)
    ∧ st₂.mtE = st.mtE
        + (itdTaskEval env fastLr reg steps sw pF pH (env.sampleTrain st.rng).1).1
    ∧ st₂.mtA = st.mtA
        + (itdTaskEval env fastLr reg steps sw pF pH (env.sampleTrain st.rng).1).2
    ∧ st₂.mvE = st.mvE ∧ st₂.mvA = st.mvA
    ∧ st₂.mteE = st.mteE ∧ st₂.mteA = st.mteA := by
  unfold itdTrainPhase at h
  dsimp only at h
  cases hfa : itdFastAdapt (env.features pF) env.fwd (env.adapt fastLr)
      env.lparams env.norm2 env.celoss reg (env.sampleTrain st.rng).1
      (env.clone pH) steps sw with
  | none => rw [hfa] at h; cases h
  | some ea =>
    rw [hfa] at h
    simp only [Option.some.injEq] at h
    subst h
    unfold itdTaskEval
    rw [hfa]
    exact ⟨rfl, fun i => rfl, fun j => rfl, rfl, rfl, rfl, rfl, rfl, rfl⟩

lemma itdValidPhase_spec {F H DT DT2 L P : Type}
    (env : ItdEnv F H DT DT2 L P) (fastLr reg : Val) (steps sw : Nat)
    (pF : F → Val) (pH : H → Val) (st st₂ : TaskState F H)
    (h : itdValidPhase env fastLr reg steps sw pF pH st = some st₂) :
    st₂.rng = (env.sampleValid st.rng).2
    ∧ st₂.gF = st.gF ∧ st₂.gH = st.gH
    ∧ st₂.mtE = st.mtE ∧ st₂.mtA = st.mtA
    ∧ st₂.mvE = st.mvE
        + (itdTaskEval env fastLr reg steps sw pF pH (env.sampleValid st.rng).1).1
    ∧ st₂.mvA = st.mvA
        + (itdTaskEval env fastLr reg steps sw pF pH (env.sampleValid st.rng).1).2
    ∧ st₂.mteE = st.mteE ∧ st₂.mteA = st.mteA := by
  unfold itdValidPhase at h
  dsimp only at h
  cases hfa : itdFastAdapt (env.features pF) env.fwd (env.adapt fastLr)
      env.lparams env.norm2 env.celoss reg (env.sampleValid st.rng).1
      (env.clone pH) steps sw with
  | none => rw [hfa] at h; cases h
  | some ea =>
    rw [hfa] at h
    simp only [Option.some.injEq] at h
    subst h
    unfold itdTaskEval
    rw [hfa]
    exact ⟨rfl, rfl, rfl, rfl, rfl, rfl, rfl, rfl, rfl⟩

lemma itdTestPhase_spec {F H DT DT2 L P : Type}
    (env : ItdEnv F H DT DT2 L P) (fastLr reg : Val) (steps sw : Nat)
    (pF : F → Val) (pH : H → Val) (st st₂ : TaskState F H)
    (h : itdTestPhase env fastLr reg steps sw pF pH st = some st₂) :
    st₂.rng = (env.sampleTest st.rng).2
    ∧ st₂.gF = st.gF ∧ st₂.gH = st.gH
    ∧ st₂.mtE = st.mtE ∧ st₂.mtA = st.mtA
    ∧ st₂.mvE = st.mvE ∧ st₂.mvA = st.mvA
    ∧ st₂.mteE = st.mteE
        + (itdTaskEval env fastLr reg steps sw pF pH (env.sampleTest st.rng).1).1
    ∧ st₂.mteA = st.mteA
        + (itdTaskEval env fastLr reg steps sw pF pH (env.sampleTest st.rng).1).2 := by
  unfold itdTestPhase at h
  dsimp only at h
  cases hfa : itdFastAdapt (env.features pF) env.fwd (env.adapt fastLr)
      env.lparams env.norm2 env.celoss reg (env.sampleTest st.rng).1
      (env.clone pH) steps sw with
  | none => rw [hfa] at h; cases h
  | some ea =>
    rw [hfa] at h
    simp only [Option.some.injEq] at h
    subst h
    unfold itdTaskEval
    rw [hfa]
    exact ⟨rfl, rfl, rfl, rfl, rfl, rfl, rfl, rfl, rfl⟩

lemma mamlTaskLoop_spec {F H DT L : Type} (env : MamlEnv F H DT L)
    (fastLr : Val) (steps sw : Nat) (pF : F → Val) (pH : H → Val)
    (n : Nat) (st0 st : TaskState F H)
    (h : mamlTaskLoop env fastLr steps sw pF pH n st0 = some st) :
    st.rng = (mamlRngStep env)^[n] st0.rng
    ∧ (∀ i, st.gF i = st0.gF i
        + ((mamlTriples env st0.rng n).map
            (fun tr => env.gradF pF pH tr.1 i)).sum)
    ∧ (∀ j, st.gH j = st0.gH j
        + ((mamlTriples env st0.rng n).map
            (fun tr => env.gradH pF pH tr.1 j)).sum)
    ∧ st.mtA = st0.mtA
        + ((mamlTriples env st0.rng n).map
            (fun tr => (mamlTaskEval env fastLr steps sw pF pH tr.1).2)).sum
    ∧ st.mteA = st0.mteA
        + ((mamlTriples env st0.rng n).map
            (fun tr => (mamlTaskEval env fastLr steps sw pF pH tr.2.2).2)).sum := by
  induction n generalizing st with
  | zero =>
    simp only [mamlTaskLoop, Option.some.injEq] at h
    subst h
    simp [mamlTriples]
  | succ k ih =>
    simp only [mamlTaskLoop] at h
    cases hk : mamlTaskLoop env fastLr steps sw pF pH k st0 with
    | none => rw [hk] at h; cases h
    | some stm =>
      rw [hk] at h
      dsimp only at h
      obtain ⟨hrng, hgF, hgH, hmtA, hmteA⟩ := ih stm hk
      unfold mamlTaskIter at h
      cases htr : mamlTrainPhase env fastLr steps sw pF pH stm with
      | none => rw [htr] at h; cases h
      | some st₂ =>
        rw [htr] at h
        dsimp only at h
        cases hv : mamlValidPhase env fastLr steps sw pF pH st₂ with
        | none => rw [hv] at h; cases h
        | some st₃ =>
          rw [hv] at h
          dsimp only at h
          obtain ⟨htr1, htr2, htr3, htr4, htr5, htr6, htr7, htr8, htr9⟩ :=
            mamlTrainPhase_spec env fastLr steps sw pF pH stm st₂ htr
          obtain ⟨hv1, hv2, hv3, hv4, hv5, hv6, hv7, hv8, hv9⟩ :=
            mamlValidPhase_spec env fastLr steps sw pF pH st₂ st₃ hv
          obtain ⟨hte1, hte2, hte3, hte4, hte5, hte6, hte7, hte8, hte9⟩ :=
            mamlTestPhase_spec env fastLr steps sw pF pH st₃ st h
          refine ⟨?_, ?_, ?_, ?_, ?_⟩
          · rw [hte1, hv1, htr1, hrng, Function.iterate_succ_apply']
            rfl
          · intro i
            rw [hte2, hv2, htr2 i, hgF i, hrng]
            simp [mamlTriples, mamlTriple, List.sum_append]
            ring
          · intro j
            rw [hte3, hv3, htr3 j, hgH j, hrng]
            simp [mamlTriples, mamlTriple, List.sum_append]
            ring
          · rw [hte5, hv5, htr5, hmtA, hrng]
            simp [mamlTriples, mamlTriple, List.sum_append]
            ring
          · rw [hte9, hv1, htr1, hrng, hv9, htr9, hmteA]
            simp [mamlTriples, mamlTriple, List.sum_append]
            ring

lemma itdTaskLoop_spec {F H DT DT2 L P : Type} (env : ItdEnv F H DT DT2 L P)
    (fastLr reg : Val) (steps sw : Nat) (pF : F → Val) (pH : H → Val)
    (n : Nat) (st0 st : TaskState F H)
    (h : itdTaskLoop env fastLr reg steps sw pF pH n st0 = some st) :
    st.rng = (itdRngStep env)^[n] st0.rng
    ∧ (∀ i, st.gF i = st0.gF i
        + ((itdTriples env st0.rng n).map
            (fun tr => env.gradF pF pH tr.1 i)).sum)
    ∧ (∀ j, st.gH j = st0.gH j
        + ((itdTriples env st0.rng n).map
            (fun tr => env.gradH pF pH tr.1 j)).sum)
    ∧ st.mtA = st0.mtA
        + ((itdTriples env st0.rng n).map
            (fun tr => (itdTaskEval env fastLr reg steps sw pF pH tr.1).2)).sum
    ∧ st.mteA = st0.mteA
        + ((itdTriples env st0.rng n).map
            (fun tr => (itdTaskEval env fastLr reg steps sw pF pH tr.2.2).2)).sum := by
  induction n generalizing st with
  | zero =>
    simp only [itdTaskLoop, Option.some.injEq] at h
    subst h
    simp [itdTriples]
  | succ k ih =>
    simp only [itdTaskLoop] at h
    cases hk : itdTaskLoop env fastLr reg steps sw pF pH k st0 with
    | none => rw [hk] at h; cases h
    | some stm =>
      rw [hk] at h
      dsimp only at h
      obtain ⟨hrng, hgF, hgH, hmtA, hmteA⟩ := ih stm hk
      unfold itdTaskIter at h
      cases htr : itdTrainPhase env fastLr reg steps sw pF pH stm with
      | none => rw [htr] at h; cases h
      | some st₂ =>
        rw [htr] at h
        dsimp only at h
        cases hv : itdValidPhase env fastLr reg steps sw pF pH st₂ with
        | none => rw [hv] at h; cases h
        | some st₃ =>
          rw [hv] at h
          dsimp only at h
          obtain ⟨htr1, htr2, htr3, htr4, htr5, htr6, htr7, htr8, htr9⟩ :=
            itdTrainPhase_spec env fastLr reg steps sw pF pH stm st₂ htr
          obtain ⟨hv1, hv2, hv3, hv4, hv5, hv6, hv7, hv8, hv9⟩ :=
            itdValidPhase_spec env fastLr reg steps sw pF pH st₂ st₃ hv
          obtain ⟨hte1, hte2, hte3, hte4, hte5, hte6, hte7, hte8, hte9⟩ :=
            itdTestPhase_spec env fastLr reg steps sw pF pH st₃ st h
          refine ⟨?_, ?_, ?_, ?_, ?_⟩
          · rw [hte1, hv1, htr1, hrng, Function.iterate_succ_apply']
            rfl
          · intro i
            rw [hte2, hv2, htr2 i, hgF i, hrng]
            simp [itdTriples, itdTriple, List.sum_append]
            ring
          · intro j
            rw [hte3, hv3, htr3 j, hgH j, hrng]
            simp [itdTriples, itdTriple, List.sum_append]
            ring
          · rw [hte5, hv5, htr5, hmtA, hrng]
            simp [itdTriples, itdTriple, List.sum_append]
            ring
          · rw [hte9, hv1, htr1, hrng, hv9, htr9, hmteA]
            simp [itdTriples, itdTriple, List.sum_append]
            ring

/- ------------------------------------------------------------------
   Concrete instantiations of the two worlds, used for witnesses and the
   counterexample: one parameter per group (indexed by Unit), unit data
   points, a single rational as learner state, 1-way 1-shot batches of
   two examples, and a subtract-the-gradient stand-in for the abstract
   per-parameter Adam update.
   ------------------------------------------------------------------ -/

/-- Concrete MamlEnv for witnesses. -/
def wMamlEnv : MamlEnv Unit Unit Unit Val :=
  { seedRng := fun s => s
    initModel := fun r => ((fun _ => 5, fun _ => 7), r)
    sampleTrain := fun r => (([(), ()], [0, 0]), r + 1)
    sampleValid := fun r => (([(), ()], [0, 0]), r + 1)
    sampleTest := fun r => (([(), ()], [0, 0]), r + 1)
    clone := fun pF pH => pF () + pH ()
    fwd := fun l d => d.map (fun _ => [l])
    adapt := fun lr l e => l - lr * e
    celoss := fun preds _ => (preds.length : Val)
    gradF := fun _ _ _ _ => 3
    gradH := fun _ _ _ _ => 4
    adamF := fun lr p g => p - lr * g
    adamH := fun lr p g => p - lr * g
    now := fun n => (n : Val) }

/-- Concrete ItdEnv for witnesses and the C3 counterexample. -/
def wItdEnv : ItdEnv Unit Unit Unit Val Val Val :=
  { seedRng := fun s => s
    initModel := fun r => ((fun _ => 5, fun _ => 7), r)
    sampleTrain := fun r => (([(), ()], [0, 0]), r + 1)
    sampleValid := fun r => (([(), ()], [0, 0]), r + 1)
    sampleTest := fun r => (([(), ()], [0, 0]), r + 1)
    features := fun pF d => d.map (fun _ => pF ())
    clone := fun pH => pH ()
    fwd := fun l d => d.map (fun _ => [l])
    adapt := fun lr l e => l - lr * e
    lparams := fun l => [l]
    norm2 := fun p => p
    celoss := fun preds _ => (preds.length : Val)
    gradF := fun _ _ _ _ => 3
    gradH := fun _ _ _ _ => 4
    adamF := fun lr p g => p - lr * g
    now := fun n => (n : Val) }

/-- C3 (counterexample): in ITD-BiO.py the outer optimizer holds only
`features.parameters()`, so the step does NOT meta-update the linear head's
initial parameters, contradicting the claim that in each script both the
backbone's and the head's initial parameters are meta-updated.  Concretely:
one iteration succeeds, a nonzero gradient (4) has been accumulated for the
head parameter, the backbone parameter is updated (5 becomes 2), yet the
head parameter is left exactly at its initial value 7. -/
theorem claim3_counterexample :
    (itdIteration wItdEnv 1 1 0 1 1 1 (fun _ => 5) (fun _ => 7)
        (fun _ => 0) 0).isSome = true
    ∧ (itdIterOut wItdEnv 1 1 0 1 1 1 (fun _ => 5) (fun _ => 7)
        (fun _ => 0) 0).gH () = 4
    ∧ (itdIterOut wItdEnv 1 1 0 1 1 1 (fun _ => 5) (fun _ => 7)
        (fun _ => 0) 0).pF () = 2
    ∧ (itdIterOut wItdEnv 1 1 0 1 1 1 (fun _ => 5) (fun _ => 7)
        (fun _ => 0) 0).pH () = 7 := by
  refine ⟨rfl, ?_, ?_, ?_⟩ <;>
    simp [itdIterOut, itdIteration, itdTaskLoop, itdTaskIter, itdTrainPhase,
      itdValidPhase, itdTestPhase, itdFastAdapt, itdEvalOn, itdStepError,
      adaptLoop, wItdEnv, adaptationIndices, npSetIndices, npSetIndex,
      boolMaskSelect, accuracy, argmaxIdx, argmaxAux, itdOptStep, dIter]
  all_goals norm_num

/-- C3 (amended): in the MAML script the outer step applies the optimizer's
per-parameter update, fed with the accumulated (scaled) gradient, to every
initial parameter of the model — backbone and head alike; in the ITD-BiO
script the optimizer holds only the backbone's parameters, so the step
updates exactly those and leaves the head's initial parameters unchanged
(the head is adapted only through per-task clones). -/
theorem claim3_outer_step_updates {F H DT L F₂ H₂ DT₂ DT3 L₂ P : Type}
    (env : MamlEnv F H DT L) (metaLr fastLr : Val) (steps sw B : Nat)
    (pF : F → Val) (pH : H → Val) (rng : Nat)
    (envI : ItdEnv F₂ H₂ DT₂ DT3 L₂ P) (metaLrI fastLrI reg : Val)
    (stepsI swI BI : Nat) (pFI : F₂ → Val) (pHI : H₂ → Val)
    (gHI : H₂ → Val) (rngI : Nat) :
    ((mamlIteration env metaLr fastLr steps sw B pF pH rng).isSome = true →
      (∀ i, (mamlIterOut env metaLr fastLr steps sw B pF pH rng).pF i
          = env.adamF metaLr (pF i)
              ((mamlIterOut env metaLr fastLr steps sw B pF pH rng).gF i))
      ∧ (∀ j, (mamlIterOut env metaLr fastLr steps sw B pF pH rng).pH j
          = env.adamH metaLr (pH j)
              ((mamlIterOut env metaLr fastLr steps sw B pF pH rng).gH j)))
    ∧ ((itdIteration envI metaLrI fastLrI reg stepsI swI BI pFI pHI gHI
          rngI).isSome = true →
      (∀ i, (itdIterOut envI metaLrI fastLrI reg stepsI swI BI pFI pHI gHI
          rngI).pF i
          = envI.adamF metaLrI (pFI i)
              ((itdIterOut envI metaLrI fastLrI reg stepsI swI BI pFI pHI gHI
                rngI).gF i))
      ∧ (itdIterOut envI metaLrI fastLrI reg stepsI swI BI pFI pHI gHI
          rngI).pH = pHI) := by
  constructor
  · intro h
    unfold mamlIterOut mamlIteration
    unfold mamlIteration at h
    dsimp only at h ⊢
    cases hl : mamlTaskLoop env fastLr steps sw pF pH B
        { rng := rng, gF := fun _ => 0, gH := fun _ => 0, mtE := 0, mtA := 0,
          mvE := 0, mvA := 0, mteE := 0, mteA := 0 } with
    | none => rw [hl] at h; simp at h
    | some st => exact ⟨fun i => rfl, fun j => rfl⟩
  · intro h
    unfold itdIterOut itdIteration
    unfold itdIteration at h
    dsimp only at h ⊢
    cases hl : itdTaskLoop envI fastLrI reg stepsI swI pFI pHI BI
        { rng := rngI, gF := fun _ => 0, gH := gHI, mtE := 0, mtA := 0,
          mvE := 0, mvA := 0, mteE := 0, mteA := 0 } with
    | none => rw [hl] at h; simp at h
    | some st => exact ⟨fun i => rfl, rfl⟩

theorem claim3_outer_step_updates_witness :
    (mamlIterOut wMamlEnv 1 1 1 1 1 (fun _ => 5) (fun _ => 7) 0).pH ()
      = wMamlEnv.adamH 1 ((fun _ : Unit => (7 : Val)) ())
          ((mamlIterOut wMamlEnv 1 1 1 1 1 (fun _ => 5) (fun _ => 7) 0).gH ())
    ∧ (itdIterOut wItdEnv 1 1 0 1 1 1 (fun _ => 5) (fun _ => 7)
        (fun _ => 0) 0).pH = (fun _ : Unit => (7 : Val)) :=
  ⟨((claim3_outer_step_updates wMamlEnv 1 1 1 1 1 (fun _ => 5) (fun _ => 7) 0
      wItdEnv 1 1 0 1 1 1 (fun _ => 5) (fun _ => 7) (fun _ => 0) 0).1
        (by rfl)).2 (),
   ((claim3_outer_step_updates wMamlEnv 1 1 1 1 1 (fun _ => 5) (fun _ => 7) 0
      wItdEnv 1 1 0 1 1 1 (fun _ => 5) (fun _ => 7) (fun _ => 0) 0).2
        (by rfl)).2⟩

/-- C4: in both scripts, at every outer iteration, after the per-task
backward passes and before the optimizer step, each optimized parameter's
accumulated gradient (zeroed at the top of the iteration) is scaled by
exactly `1/meta_batch_size`, so the gradient applied by the step is the
arithmetic mean of the per-task meta-training gradients of that iteration.
In MAML the optimized parameters are the backbone's and the head's; in
ITD-BiO they are exactly the backbone's (`all_parameters`). -/
theorem claim4_gradient_mean {F H DT L F₂ H₂ DT₂ DT3 L₂ P : Type}
    (env : MamlEnv F H DT L) (metaLr fastLr : Val) (steps sw B : Nat)
    (pF : F → Val) (pH : H → Val) (rng : Nat)
    (envI : ItdEnv F₂ H₂ DT₂ DT3 L₂ P) (metaLrI fastLrI reg : Val)
    (stepsI swI BI : Nat) (pFI : F₂ → Val) (pHI : H₂ → Val)
    (gHI : H₂ → Val) (rngI : Nat) :
    ((mamlIteration env metaLr fastLr steps sw B pF pH rng).isSome = true →
      (∀ i, (mamlIterOut env metaLr fastLr steps sw B pF pH rng).gF i
            = ((mamlTriples env rng B).map
                (fun tr => env.gradF pF pH tr.1 i)).sum / (B : Val)
        ∧ (mamlIterOut env metaLr fastLr steps sw B pF pH rng).pF i
            = env.adamF metaLr (pF i)
                (((mamlTriples env rng B).map
                  (fun tr => env.gradF pF pH tr.1 i)).sum / (B : Val)))
      ∧ (∀ j, (mamlIterOut env metaLr fastLr steps sw B pF pH rng).gH j
            = ((mamlTriples env rng B).map
                (fun tr => env.gradH pF pH tr.1 j)).sum / (B : Val)
        ∧ (mamlIterOut env metaLr fastLr steps sw B pF pH rng).pH j
            = env.adamH metaLr (pH j)
                (((mamlTriples env rng B).map
                  (fun tr => env.gradH pF pH tr.1 j)).sum / (B : Val))))
    ∧ ((itdIteration envI metaLrI fastLrI reg stepsI swI BI pFI pHI gHI
          rngI).isSome = true →
      ∀ i, (itdIterOut envI metaLrI fastLrI reg stepsI swI BI pFI pHI gHI
            rngI).gF i
            = ((itdTriples envI rngI BI).map
                (fun tr => envI.gradF pFI pHI tr.1 i)).sum / (BI : Val)
        ∧ (itdIterOut envI metaLrI fastLrI reg stepsI swI BI pFI pHI gHI
            rngI).pF i
            = envI.adamF metaLrI (pFI i)
                (((itdTriples envI rngI BI).map
                  (fun tr => envI.gradF pFI pHI tr.1 i)).sum / (BI : Val))) := by
  constructor
  · intro h
    unfold mamlIterOut mamlIteration
    unfold mamlIteration at h
    dsimp only at h ⊢
    cases hl : mamlTaskLoop env fastLr steps sw pF pH B
        { rng := rng, gF := fun _ => 0, gH := fun _ => 0, mtE := 0, mtA := 0,
          mvE := 0, mvA := 0, mteE := 0, mteA := 0 } with
    | none => rw [hl] at h; simp at h
    | some st =>
      obtain ⟨-, hgF, hgH, -, -⟩ :=
        mamlTaskLoop_spec env fastLr steps sw pF pH B _ st hl
      have hgF₂ : ∀ i, st.gF i
          = ((mamlTriples env rng B).map
              (fun tr => env.gradF pF pH tr.1 i)).sum := by
        intro i
        simpa using hgF i
      have hgH₂ : ∀ j, st.gH j
          = ((mamlTriples env rng B).map
              (fun tr => env.gradH pF pH tr.1 j)).sum := by
        intro j
        simpa using hgH j
      refine ⟨fun i => ⟨?_, ?_⟩, fun j => ⟨?_, ?_⟩⟩ <;>
        simp only [Option.getD_some, mamlOptStep]
      · rw [hgF₂ i]; ring
      · rw [hgF₂ i]; congr 1; ring
      · rw [hgH₂ j]; ring
      · rw [hgH₂ j]; congr 1; ring
  · intro h
    unfold itdIterOut itdIteration
    unfold itdIteration at h
    dsimp only at h ⊢
    cases hl : itdTaskLoop envI fastLrI reg stepsI swI pFI pHI BI
        { rng := rngI, gF := fun _ => 0, gH := gHI, mtE := 0, mtA := 0,
          mvE := 0, mvA := 0, mteE := 0, mteA := 0 } with
    | none => rw [hl] at h; simp at h
    | some st =>
      obtain ⟨-, hgF, -, -, -⟩ :=
        itdTaskLoop_spec envI fastLrI reg stepsI swI pFI pHI BI _ st hl
      have hgF₂ : ∀ i, st.gF i
          = ((itdTriples envI rngI BI).map
              (fun tr => envI.gradF pFI pHI tr.1 i)).sum := by
        intro i
        simpa using hgF i
      refine fun i => ⟨?_, ?_⟩ <;>
        simp only [Option.getD_some, itdOptStep]
      · rw [hgF₂ i]; ring
      · rw [hgF₂ i]; congr 1; ring

theorem claim4_gradient_mean_witness :
    (mamlIterOut wMamlEnv 1 1 1 1 1 (fun _ => 5) (fun _ => 7) 0).gF ()
      = ((mamlTriples wMamlEnv 0 1).map
          (fun tr => wMamlEnv.gradF (fun _ => 5) (fun _ => 7) tr.1 ())).sum
            / ((1 : Nat) : Val)
    ∧ (itdIterOut wItdEnv 1 1 0 1 1 1 (fun _ => 5) (fun _ => 7)
        (fun _ => 0) 0).gF ()
      = ((itdTriples wItdEnv 0 1).map
          (fun tr => wItdEnv.gradF (fun _ => 5) (fun _ => 7) tr.1 ())).sum
            / ((1 : Nat) : Val) :=
  ⟨(((claim4_gradient_mean wMamlEnv 1 1 1 1 1 (fun _ => 5) (fun _ => 7) 0
      wItdEnv 1 1 0 1 1 1 (fun _ => 5) (fun _ => 7) (fun _ => 0) 0).1
        (by rfl)).1 ()).1,
   (((claim4_gradient_mean wMamlEnv 1 1 1 1 1 (fun _ => 5) (fun _ => 7) 0
      wItdEnv 1 1 0 1 1 1 (fun _ => 5) (fun _ => 7) (fun _ => 0) 0).2
        (by rfl)) ()).1⟩

/-- C5: in both scripts, for every outer iteration the recorded
`training_accuracy[i]` (and likewise `test_accuracy[i]`) equals the
arithmetic mean over the meta batch of the per-task evaluation accuracies
returned by fast_adapt, and the accuracy function itself equals the number
of evaluation examples whose argmax prediction equals their label divided
by the number of evaluation examples. -/
theorem claim5_recorded_accuracy {F H DT L F₂ H₂ DT₂ DT3 L₂ P : Type}
    (env : MamlEnv F H DT L) (metaLr fastLr : Val) (steps sw B : Nat)
    (pF : F → Val) (pH : H → Val) (rng : Nat)
    (envI : ItdEnv F₂ H₂ DT₂ DT3 L₂ P) (metaLrI fastLrI reg : Val)
    (stepsI swI BI : Nat) (pFI : F₂ → Val) (pHI : H₂ → Val)
    (gHI : H₂ → Val) (rngI : Nat) :
    ((mamlIteration env metaLr fastLr steps sw B pF pH rng).isSome = true →
      (mamlIterOut env metaLr fastLr steps sw B pF pH rng).recTrain
          = ((mamlTriples env rng B).map
              (fun tr => (mamlTaskEval env fastLr steps sw pF pH tr.1).2)).sum
              / (B : Val)
      ∧ (mamlIterOut env metaLr fastLr steps sw B pF pH rng).recTest
          = ((mamlTriples env rng B).map
              (fun tr => (mamlTaskEval env fastLr steps sw pF pH tr.2.2).2)).sum
              / (B : Val))
    ∧ ((itdIteration envI metaLrI fastLrI reg stepsI swI BI pFI pHI gHI
          rngI).isSome = true →
      (itdIterOut envI metaLrI fastLrI reg stepsI swI BI pFI pHI gHI
          rngI).recTrain
          = ((itdTriples envI rngI BI).map
              (fun tr =>
                (itdTaskEval envI fastLrI reg stepsI swI pFI pHI tr.1).2)).sum
              / (BI : Val)
      ∧ (itdIterOut envI metaLrI fastLrI reg stepsI swI BI pFI pHI gHI
          rngI).recTest
          = ((itdTriples envI rngI BI).map
              (fun tr =>
                (itdTaskEval envI fastLrI reg stepsI swI pFI pHI tr.2.2).2)).sum
              / (BI : Val))
    ∧ (∀ (preds : List (List Val)) (targets : List Nat),
        accuracy preds targets = specAccuracy preds targets) := by
  refine ⟨?_, ?_, accuracy_eq_specAccuracy⟩
  · intro h
    unfold mamlIterOut mamlIteration
    unfold mamlIteration at h
    dsimp only at h ⊢
    cases hl : mamlTaskLoop env fastLr steps sw pF pH B
        { rng := rng, gF := fun _ => 0, gH := fun _ => 0, mtE := 0, mtA := 0,
          mvE := 0, mvA := 0, mteE := 0, mteA := 0 } with
    | none => rw [hl] at h; simp at h
    | some st =>
      obtain ⟨-, -, -, hmtA, hmteA⟩ :=
        mamlTaskLoop_spec env fastLr steps sw pF pH B _ st hl
      have hmtA₂ : st.mtA = ((mamlTriples env rng B).map
          (fun tr => (mamlTaskEval env fastLr steps sw pF pH tr.1).2)).sum := by
        simpa using hmtA
      have hmteA₂ : st.mteA = ((mamlTriples env rng B).map
          (fun tr => (mamlTaskEval env fastLr steps sw pF pH tr.2.2).2)).sum := by
        simpa using hmteA
      exact ⟨by simp only [Option.getD_some]; rw [hmtA₂],
        by simp only [Option.getD_some]; rw [hmteA₂]⟩
  · intro h
    unfold itdIterOut itdIteration
    unfold itdIteration at h
    dsimp only at h ⊢
    cases hl : itdTaskLoop envI fastLrI reg stepsI swI pFI pHI BI
        { rng := rngI, gF := fun _ => 0, gH := gHI, mtE := 0, mtA := 0,
          mvE := 0, mvA := 0, mteE := 0, mteA := 0 } with
    | none => rw [hl] at h; simp at h
    | some st =>
      obtain ⟨-, -, -, hmtA, hmteA⟩ :=
        itdTaskLoop_spec envI fastLrI reg stepsI swI pFI pHI BI _ st hl
      have hmtA₂ : st.mtA = ((itdTriples envI rngI BI).map
          (fun tr =>
            (itdTaskEval envI fastLrI reg stepsI swI pFI pHI tr.1).2)).sum := by
        simpa using hmtA
      have hmteA₂ : st.mteA = ((itdTriples envI rngI BI).map
          (fun tr =>
            (itdTaskEval envI fastLrI reg stepsI swI pFI pHI tr.2.2).2)).sum := by
        simpa using hmteA
      exact ⟨by simp only [Option.getD_some]; rw [hmtA₂],
        by simp only [Option.getD_some]; rw [hmteA₂]⟩

theorem claim5_recorded_accuracy_witness :
    (mamlIterOut wMamlEnv 1 1 1 1 1 (fun _ => 5) (fun _ => 7) 0).recTrain
      = ((mamlTriples wMamlEnv 0 1).map
          (fun tr => (mamlTaskEval wMamlEnv 1 1 1 (fun _ => 5) (fun _ => 7)
            tr.1).2)).sum / ((1 : Nat) : Val)
    ∧ (itdIterOut wItdEnv 1 1 0 1 1 1 (fun _ => 5) (fun _ => 7)
        (fun _ => 0) 0).recTrain
      = ((itdTriples wItdEnv 0 1).map
          (fun tr => (itdTaskEval wItdEnv 1 0 1 1 (fun _ => 5) (fun _ => 7)
            tr.1).2)).sum / ((1 : Nat) : Val) :=
  ⟨((claim5_recorded_accuracy wMamlEnv 1 1 1 1 1 (fun _ => 5) (fun _ => 7) 0
      wItdEnv 1 1 0 1 1 1 (fun _ => 5) (fun _ => 7) (fun _ => 0) 0).1
        (by rfl)).1,
   ((claim5_recorded_accuracy wMamlEnv 1 1 1 1 1 (fun _ => 5) (fun _ => 7) 0
      wItdEnv 1 1 0 1 1 1 (fun _ => 5) (fun _ => 7) (fun _ => 0) 0).2.1
        (by rfl)).1⟩

/-- C9: within each outer iteration of either script, only the
meta-training task's evaluation error is back-propagated into the
accumulated gradients (the train phase is the only one that adds to
.grad); the meta-validation and meta-test evaluations run on fresh clones
and leave both .grad accumulators and all other phases' statistics
unchanged — the valid phase adds only to `meta_valid_*`, the test phase
only to `meta_test_*` (whose accuracy later feeds the recorded
test-accuracy array).  The meta parameters are read-only throughout the
task loop by construction (no phase writes them). -/
theorem claim9_valid_test_frame {F H DT L F₂ H₂ DT₂ DT3 L₂ P : Type}
    (env : MamlEnv F H DT L) (fastLr : Val) (steps sw : Nat)
    (pF : F → Val) (pH : H → Val)
    (envI : ItdEnv F₂ H₂ DT₂ DT3 L₂ P) (fastLrI regI : Val)
    (stepsI swI : Nat) (pFI : F₂ → Val) (pHI : H₂ → Val) :
    (∀ st st₂ : TaskState F H,
      mamlValidPhase env fastLr steps sw pF pH st = some st₂ →
        st₂.gF = st.gF ∧ st₂.gH = st.gH ∧ st₂.mtE = st.mtE ∧ st₂.mtA = st.mtA
        ∧ st₂.mteE = st.mteE ∧ st₂.mteA = st.mteA)
    ∧ (∀ st st₂ : TaskState F H,
      mamlTestPhase env fastLr steps sw pF pH st = some st₂ →
        st₂.gF = st.gF ∧ st₂.gH = st.gH ∧ st₂.mtE = st.mtE ∧ st₂.mtA = st.mtA
        ∧ st₂.mvE = st.mvE ∧ st₂.mvA = st.mvA)
    ∧ (∀ st st₂ : TaskState F H,
      mamlTrainPhase env fastLr steps sw pF pH st = some st₂ →
        (∀ i, st₂.gF i = st.gF i
            + env.gradF pF pH (env.sampleTrain st.rng).1 i)
        ∧ (∀ j, st₂.gH j = st.gH j
            + env.gradH pF pH (env.sampleTrain st.rng).1 j)
        ∧ st₂.mvE = st.mvE ∧ st₂.mvA = st.mvA
        ∧ st₂.mteE = st.mteE ∧ st₂.mteA = st.mteA)
    ∧ (∀ st st₂ : TaskState F₂ H₂,
      itdValidPhase envI fastLrI regI stepsI swI pFI pHI st = some st₂ →
        st₂.gF = st.gF ∧ st₂.gH = st.gH ∧ st₂.mtE = st.mtE ∧ st₂.mtA = st.mtA
        ∧ st₂.mteE = st.mteE ∧ st₂.mteA = st.mteA)
    ∧ (∀ st st₂ : TaskState F₂ H₂,
      itdTestPhase envI fastLrI regI stepsI swI pFI pHI st = some st₂ →
        st₂.gF = st.gF ∧ st₂.gH = st.gH ∧ st₂.mtE = st.mtE ∧ st₂.mtA = st.mtA
        ∧ st₂.mvE = st.mvE ∧ st₂.mvA = st.mvA)
    ∧ (∀ st st₂ : TaskState F₂ H₂,
      itdTrainPhase envI fastLrI regI stepsI swI pFI pHI st = some st₂ →
        (∀ i, st₂.gF i = st.gF i
            + envI.gradF pFI pHI (envI.sampleTrain st.rng).1 i)
        ∧ (∀ j, st₂.gH j = st.gH j
            + envI.gradH pFI pHI (envI.sampleTrain st.rng).1 j)
        ∧ st₂.mvE = st.mvE ∧ st₂.mvA = st.mvA
        ∧ st₂.mteE = st.mteE ∧ st₂.mteA = st.mteA) := by
  refine ⟨?_, ?_, ?_, ?_, ?_, ?_⟩
  · intro st st₂ h
    obtain ⟨-, h2, h3, h4, h5, -, -, h8, h9⟩ :=
      mamlValidPhase_spec env fastLr steps sw pF pH st st₂ h
    exact ⟨h2, h3, h4, h5, h8, h9⟩
  · intro st st₂ h
    obtain ⟨-, h2, h3, h4, h5, h6, h7, -, -⟩ :=
      mamlTestPhase_spec env fastLr steps sw pF pH st st₂ h
    exact ⟨h2, h3, h4, h5, h6, h7⟩
  · intro st st₂ h
    obtain ⟨-, h2, h3, -, -, h6, h7, h8, h9⟩ :=
      mamlTrainPhase_spec env fastLr steps sw pF pH st st₂ h
    exact ⟨h2, h3, h6, h7, h8, h9⟩
  · intro st st₂ h
    obtain ⟨-, h2, h3, h4, h5, -, -, h8, h9⟩ :=
      itdValidPhase_spec envI fastLrI regI stepsI swI pFI pHI st st₂ h
    exact ⟨h2, h3, h4, h5, h8, h9⟩
  · intro st st₂ h
    obtain ⟨-, h2, h3, h4, h5, h6, h7, -, -⟩ :=
      itdTestPhase_spec envI fastLrI regI stepsI swI pFI pHI st st₂ h
    exact ⟨h2, h3, h4, h5, h6, h7⟩
  · intro st st₂ h
    obtain ⟨-, h2, h3, -, -, h6, h7, h8, h9⟩ :=
      itdTrainPhase_spec envI fastLrI regI stepsI swI pFI pHI st st₂ h
    exact ⟨h2, h3, h6, h7, h8, h9⟩

theorem claim9_valid_test_frame_witness :
    ((mamlValidPhase wMamlEnv 1 1 1 (fun _ => 5) (fun _ => 7)
        dTask).getD dTask).mtA = (dTask : TaskState Unit Unit).mtA
    ∧ ((itdTestPhase wItdEnv 1 0 1 1 (fun _ => 5) (fun _ => 7)
        dTask).getD dTask).mtA = (dTask : TaskState Unit Unit).mtA :=
  ⟨((claim9_valid_test_frame wMamlEnv 1 1 1 (fun _ => 5) (fun _ => 7)
      wItdEnv 1 0 1 1 (fun _ => 5) (fun _ => 7)).1 dTask
      ((mamlValidPhase wMamlEnv 1 1 1 (fun _ => 5) (fun _ => 7)
        dTask).getD dTask) (by rfl)).2.2.2.1,
   ((claim9_valid_test_frame wMamlEnv 1 1 1 (fun _ => 5) (fun _ => 7)
      wItdEnv 1 0 1 1 (fun _ => 5) (fun _ => 7)).2.2.2.2.1 dTask
      ((itdTestPhase wItdEnv 1 0 1 1 (fun _ => 5) (fun _ => 7)
        dTask).getD dTask) (by rfl)).2.2.2.1⟩

/-- C6: each script's main re-seeds the global RNG of random/numpy/torch
from `seed` as its first action, so the result of main does not depend on
the incoming global RNG state: two runs of main with the same seed and the
same remaining arguments return identical training-accuracy,
test-accuracy and running-time arrays, element for element. -/
theorem claim6_fixed_seed_deterministic {F H DT L F₂ H₂ DT₂ DT3 L₂ P : Type}
    (env : MamlEnv F H DT L) (envI : ItdEnv F₂ H₂ DT₂ DT3 L₂ P)
    (metaLr fastLr reg : Val) (ways shots B steps iters seed r₁ r₂ : Nat) :
    mamlMain env metaLr fastLr ways shots B steps iters seed r₁
      = mamlMain env metaLr fastLr ways shots B steps iters seed r₂
    ∧ (∀ k, ((mamlMain env metaLr fastLr ways shots B steps iters seed
          r₁).getD ([], [], [])).1.getD k 0
        = ((mamlMain env metaLr fastLr ways shots B steps iters seed
          r₂).getD ([], [], [])).1.getD k 0)
    ∧ (∀ k, ((mamlMain env metaLr fastLr ways shots B steps iters seed
          r₁).getD ([], [], [])).2.1.getD k 0
        = ((mamlMain env metaLr fastLr ways shots B steps iters seed
          r₂).getD ([], [], [])).2.1.getD k 0)
    ∧ itdMain envI metaLr fastLr reg ways shots B steps iters seed r₁
      = itdMain envI metaLr fastLr reg ways shots B steps iters seed r₂
    ∧ (∀ k, ((itdMain envI metaLr fastLr reg ways shots B steps iters seed
          r₁).getD ([], [], [])).1.getD k 0
        = ((itdMain envI metaLr fastLr reg ways shots B steps iters seed
          r₂).getD ([], [], [])).1.getD k 0)
    ∧ (∀ k, ((itdMain envI metaLr fastLr reg ways shots B steps iters seed
          r₁).getD ([], [], [])).2.1.getD k 0
        = ((itdMain envI metaLr fastLr reg ways shots B steps iters seed
          r₂).getD ([], [], [])).2.1.getD k 0) :=
  ⟨rfl, fun _ => rfl, fun _ => rfl, rfl, fun _ => rfl, fun _ => rfl⟩

lemma mamlSeedLoop_eq_mapM {F H DT L : Type} (env : MamlEnv F H DT L)
    (metaLr fastLr : Val) (stp iters : Nat) (l : List Nat) :
    mamlSeedLoop env metaLr fastLr stp iters l
      = (l.mapM (fun s => mamlMain env metaLr fastLr 5 5 32 stp iters s 0)).map
          (fun outs => (outs.map (fun o => o.1),
            outs.map (fun o => o.2.1), outs.map (fun o => o.2.2))) := by
  induction l with
  | nil => rfl
  | cons s rest ih =>
    simp only [mamlSeedLoop, List.mapM_cons]
    cases mamlMain env metaLr fastLr 5 5 32 stp iters s 0 with
    | none => rfl
    | some out =>
      rw [ih]
      cases rest.mapM (fun s => mamlMain env metaLr fastLr 5 5 32 stp iters s 0) with
      | none => rfl
      | some outs => rfl

lemma itdSeedLoop_eq_mapM {F H DT DT2 L P : Type} (env : ItdEnv F H DT DT2 L P)
    (metaLr fastLr reg : Val) (stp iters : Nat) (l : List Nat) :
    itdSeedLoop env metaLr fastLr reg stp iters l
      = (l.mapM (fun s => itdMain env metaLr fastLr reg 5 5 32 stp iters s 0)).map
          (fun outs => (outs.map (fun o => o.1),
            outs.map (fun o => o.2.1), outs.map (fun o => o.2.2))) := by
  induction l with
  | nil => rfl
  | cons s rest ih =>
    simp only [itdSeedLoop, List.mapM_cons]
    cases itdMain env metaLr fastLr reg 5 5 32 stp iters s 0 with
    | none => rfl
    | some out =>
      rw [ih]
      cases rest.mapM (fun s => itdMain env metaLr fastLr reg 5 5 32 stp iters s 0) with
      | none => rfl
      | some outs => rfl

/-- C7: when run as a script, after completing all seeds each program
writes exactly three pickled outputs into the fixed directory 'exp_data',
named 'train_accuracy', 'test_accuracy' and 'run_time' suffixed by
'_lr_<meta_lr>_fastlr_<fast_lr>_steps_<steps>' (with the hyperparameter
values rendered by Python's str); each file holds a list with one
per-iteration array per seed in [42, 52, 62, 72, 82] — the first, second
and third components returned by main (training accuracy, test accuracy
and elapsed time per outer iteration). -/
theorem claim7_script_writes {F H DT L F₂ H₂ DT₂ DT3 L₂ P : Type}
    (env : MamlEnv F H DT L) (envI : ItdEnv F₂ H₂ DT₂ DT3 L₂ P)
    (pyStr pyStrI : Val → String) :
    scriptSeeds = [42, 52, 62, 72, 82]
    ∧ mamlScript env pyStr
      = ((scriptSeeds.mapM
            (fun s => mamlMain env (1 / 1000) (1 / 2) 5 5 32 3 1200 s 0)).map
          (fun outs =>
            [("exp_data/train_accuracy" ++ ("_lr_" ++ pyStr (1 / 1000)
                ++ "_fastlr_" ++ pyStr (1 / 2) ++ "_steps_"
                ++ toString (3 : Nat)), outs.map (fun o => o.1)),
             ("exp_data/test_accuracy" ++ ("_lr_" ++ pyStr (1 / 1000)
                ++ "_fastlr_" ++ pyStr (1 / 2) ++ "_steps_"
                ++ toString (3 : Nat)), outs.map (fun o => o.2.1)),
             ("exp_data/run_time" ++ ("_lr_" ++ pyStr (1 / 1000)
                ++ "_fastlr_" ++ pyStr (1 / 2) ++ "_steps_"
                ++ toString (3 : Nat)), outs.map (fun o => o.2.2))]))
    ∧ itdScript envI pyStrI
      = ((scriptSeeds.mapM
            (fun s => itdMain envI (1 / 1000) (1 / 10) 0 5 5 32 20 1500 s 0)).map
          (fun outs =>
            [("exp_data/train_accuracy" ++ ("_lr_" ++ pyStrI (1 / 1000)
                ++ "_fastlr_" ++ pyStrI (1 / 10) ++ "_steps_"
                ++ toString (20 : Nat)), outs.map (fun o => o.1)),
             ("exp_data/test_accuracy" ++ ("_lr_" ++ pyStrI (1 / 1000)
                ++ "_fastlr_" ++ pyStrI (1 / 10) ++ "_steps_"
                ++ toString (20 : Nat)), outs.map (fun o => o.2.1)),
             ("exp_data/run_time" ++ ("_lr_" ++ pyStrI (1 / 1000)
                ++ "_fastlr_" ++ pyStrI (1 / 10) ++ "_steps_"
                ++ toString (20 : Nat)), outs.map (fun o => o.2.2))])) := by
  refine ⟨rfl, ?_, ?_⟩
  · unfold mamlScript
    rw [mamlSeedLoop_eq_mapM]
    cases scriptSeeds.mapM
        (fun s => mamlMain env (1 / 1000) (1 / 2) 5 5 32 3 1200 s 0) with
    | none => rfl
    | some outs => rfl
  · unfold itdScript
    rw [itdSeedLoop_eq_mapM]
    cases scriptSeeds.mapM
        (fun s => itdMain envI (1 / 1000) (1 / 10) 0 5 5 32 20 1500 s 0) with
    | none => rfl
    | some outs => rfl
